import Mathlib

/-!
Verification of the pipeline step-state machine, bulk-job polling,
per-entity batch running, contact enrichment fallback and rate limiting
of the b2b-enrichment-app repository, as a shallow embedding in Lean.

Shallow embedding conventions:
* Python dictionaries holding entity data become structures with
  `Option` fields (a missing key is `none`; `dict.get(k, d)` becomes
  `Option.getD`).
* Wall-clock readings (`datetime.now()`, `time.time()`) become values of
  an abstract counter threaded through the state (`clock`), or rational
  inputs for the rate limiter.
* External HTTP calls become oracle functions supplied as an
  environment; a Python exception is `Except.error`.
* Streamlit session state (`st.session_state`) becomes the explicit
  `SessionState` record; the step dict becomes a function from step
  index to `StepState`.
* To reason about status transitions, `updateStepState` additionally
  records every status write as a `(step, old, new)` triple in a
  `trace` field.  This instrumentation only appends to `trace` and
  changes nothing else.
-/

/-! ## Step state tracker (streamlit_app/core/state_manager.py) -/

inductive StepStatus where
  | pending
  | running
  | completed
  | failed
  | skipped
deriving DecidableEq, Repr

/-- One pipeline step record, mirroring `StepState` /
`create_initial_steps` in state_manager.py.  Timestamps are abstract
clock values. -/
structure StepState where
  status : StepStatus := .pending
  startedAt : Option Nat := none
  completedAt : Option Nat := none
  resultCount : Nat := 0
  errorMessage : Option String := none
  logs : List String := []
deriving DecidableEq, Repr

/-- A `dirigeant` entry embedded in a Pappers company record
(`company.get("dirigeants", [])`, fields read with `.get`). -/
structure Dirigeant where
  nom : Option String := none
  qualite : Option String := none
deriving DecidableEq, Repr

/-- A company record.  `nom` and `siren` are read with `company["nom"]`
/ `company["siren"]` (always present), `linkedin_url` with `.get`. -/
structure Company where
  nom : String
  siren : String
  linkedinUrl : Option String := none
  dirigeants : List Dirigeant := []
deriving DecidableEq, Repr

/-- A parsed employee record (`_parse_employees` output shape). -/
structure Employee where
  name : String := ""
  firstName : String := ""
  lastName : String := ""
  title : String := ""
  linkedinUrl : String := ""
  location : String := ""
deriving DecidableEq, Repr

/-- One entry of the step-4 result dict
`{siren: {"company": company, "employees": [...]}}`. -/
structure BatchEntry where
  company : Company
  employees : List Employee
deriving DecidableEq, Repr

/-- A decision-maker / contact dict flowing through steps 5..7.  All
fields are optional keys of the underlying Python dict. -/
structure DecisionMaker where
  name : Option String := none
  title : Option String := none
  entreprise : Option String := none
  siren : Option String := none
  personaType : Option String := none
  firstName : Option String := none
  lastName : Option String := none
  company : Option String := none
  linkedinUrl : Option String := none
  email : Option String := none
  emailVerified : Bool := false
  phone : Option String := none
  phoneType : Option String := none
deriving DecidableEq, Repr

/-- Python truthiness of an optional string (`None` and `""` falsy). -/
def truthyOpt (o : Option String) : Bool :=
  match o with
  | none => false
  | some s => !s.isEmpty

/-- The mutable Streamlit session state, restricted to the fields the
pipeline core reads and writes, plus the transition `trace`
instrumentation and the abstract `clock`. -/
structure SessionState where
  steps : Nat → StepState
  isRunning : Bool := false
  currentStep : Nat := 0
  stopRequested : Bool := false
  pipelineStartedAt : Option Nat := none
  pipelineCompletedAt : Option Nat := none
  companies : List Company := []
  companyEmployees : List (String × BatchEntry) := []
  decisionMakers : List DecisionMaker := []
  enrichedContacts : List DecisionMaker := []
  companiesCsvPath : Option String := none
  contactsCsvPath : Option String := none
  clock : Nat := 0
  trace : List (Nat × StepStatus × StepStatus) := []

/-- The freshly initialized session (`initialize_session_state` /
`reset_pipeline_state`): every step record is a default `StepState`. -/
def initialSession : SessionState :=
  { steps := fun _ => {} }

/-- One `datetime.now()` reading: returns the current abstract instant
and advances the clock. -/
def tick (s : SessionState) : Nat × SessionState :=
  (s.clock, { s with clock := s.clock + 1 })

/-- The keyword arguments of one `update_step_state` call: `none` means
the keyword was not passed. -/
structure StepUpdate where
  status : Option StepStatus := none
  startedAt : Option (Option Nat) := none
  completedAt : Option (Option Nat) := none
  resultCount : Option Nat := none
  errorMessage : Option (Option String) := none

/-- Apply the passed keyword arguments to one step record. -/
def applyUpdate (rec : StepState) (u : StepUpdate) : StepState :=
  { rec with
    status := u.status.getD rec.status
    startedAt := u.startedAt.getD rec.startedAt
    completedAt := u.completedAt.getD rec.completedAt
    resultCount := u.resultCount.getD rec.resultCount
    errorMessage := u.errorMessage.getD rec.errorMessage }

/-- `update_step_state(step, **kwargs)`.  Also appends the status write
(old status, new status) to the instrumentation trace when a `status`
keyword is passed. -/
def updateStepState (s : SessionState) (step : Nat) (u : StepUpdate) :
    SessionState :=
  let old := s.steps step
  let rec' := applyUpdate old u
  { s with
    steps := fun n => if n = step then rec' else s.steps n
    trace := s.trace ++
      (match u.status with
       | some v => [(step, old.status, v)]
       | none => []) }

/-- `add_step_log(step, message)` (timestamp prefix elided). -/
def addStepLog (s : SessionState) (step : Nat) (msg : String) :
    SessionState :=
  { s with
    steps := fun n =>
      if n = step then
        { s.steps step with logs := (s.steps step).logs ++ [msg] }
      else s.steps n }

/-! ## Pipeline runner (streamlit_app/core/pipeline_runner.py) -/

/-- The environment a pipeline run executes against: the backend step
functions of main.py as oracles, and whether the user presses the stop
button while step `k` executes (`stopDuring k`). -/
structure PipelineEnv where
  step1 : Option Nat → Except String (List Company)
  step2 : List Company → Except String (List Company)
  step3 : List Company → Except String String
  step4 : List Company → Except String (List (String × BatchEntry))
  step5 : List (String × BatchEntry) → Except String (List DecisionMaker)
  step6 : List DecisionMaker → Except String (List DecisionMaker)
  step7 : List DecisionMaker → Except String String
  stopDuring : Nat → Bool := fun _ => false

/-- `run_step_with_capture(step, func, ...)`.  The wrapped call is the
already-determined oracle outcome `action`; `stopDuring` is whether the
user presses stop while the call runs.  Returns `.ok none` for the
Python `return None` on the stop path, `.ok (some a)` for a normal
return, and `.error e` for a re-raised exception. -/
def runStepWithCapture {α : Type} (stopDuring : Bool) (step : Nat)
    (action : Except String α) (s : SessionState) :
    Except String (Option α) × SessionState :=
  if s.stopRequested then
    (.ok none,
      updateStepState s step
        { status := some .failed
          errorMessage := some (some "Arrete par utilisateur") })
  else
    let s1 := { s with currentStep := step }
    let t1 := (tick s1).1
    let s2 := (tick s1).2
    let s3 := updateStepState s2 step
      { status := some .running
        startedAt := some (some t1)
        errorMessage := some none }
    let s4 := { s3 with stopRequested := s3.stopRequested || stopDuring }
    match action with
    | .ok a =>
      (.ok (some a),
        updateStepState (tick s4).2 step
          { status := some .completed
            completedAt := some (some (tick s4).1) })
    | .error e =>
      let s6 := updateStepState (tick s4).2 step
        { status := some .failed
          errorMessage := some (some e)
          completedAt := some (some (tick s4).1) }
      (.error e, addStepLog s6 step ("ERREUR: " ++ e))

/-- `execute_step_1`. -/
def executeStep1 (env : PipelineEnv) (maxCompanies : Option Nat)
    (s : SessionState) :
    Except String (Option (List Company)) × SessionState :=
  match runStepWithCapture (env.stopDuring 1) 1 (env.step1 maxCompanies) s with
  | (.ok (some companies), s') =>
    if companies.isEmpty then (.ok (some companies), s')
    else
      (.ok (some companies),
        updateStepState { s' with companies := companies } 1
          { resultCount := some companies.length })
  | r => r

/-- `execute_step_2`. -/
def executeStep2 (env : PipelineEnv) (s : SessionState) :
    Except String (Option (List Company)) × SessionState :=
  let companies := s.companies
  if companies.isEmpty then
    (.error "Pas de donnees entreprises. Executez etape 1 avant.", s)
  else
    match runStepWithCapture (env.stopDuring 2) 2 (env.step2 companies) s with
    | (.ok (some enriched), s') =>
      if enriched.isEmpty then (.ok (some enriched), s')
      else
        (.ok (some enriched),
          updateStepState { s' with companies := enriched } 2
            { resultCount :=
                some (enriched.filter (fun c => truthyOpt c.linkedinUrl)).length })
    | r => r

/-- `execute_step_3`. -/
def executeStep3 (env : PipelineEnv) (s : SessionState) :
    Except String (Option String) × SessionState :=
  let companies := s.companies
  if companies.isEmpty then
    (.error "Pas de donnees entreprises. Executez les etapes 1-2 avant.", s)
  else
    match runStepWithCapture (env.stopDuring 3) 3 (env.step3 companies) s with
    | (.ok (some filepath), s') =>
      if filepath.isEmpty then (.ok (some filepath), s')
      else
        (.ok (some filepath),
          updateStepState { s' with companiesCsvPath := some filepath } 3
            { resultCount := some companies.length })
    | r => r

/-- `execute_step_4`. -/
def executeStep4 (env : PipelineEnv) (s : SessionState) :
    Except String (Option (List (String × BatchEntry))) × SessionState :=
  let companies := s.companies
  if companies.isEmpty then
    (.error "Pas de donnees entreprises.", s)
  else
    match runStepWithCapture (env.stopDuring 4) 4 (env.step4 companies) s with
    | (.ok (some ce), s') =>
      if ce.isEmpty then (.ok (some ce), s')
      else
        (.ok (some ce),
          updateStepState { s' with companyEmployees := ce } 4
            { resultCount := some ce.length })
    | r => r

/-- `execute_step_5`. -/
def executeStep5 (env : PipelineEnv) (s : SessionState) :
    Except String (Option (List DecisionMaker)) × SessionState :=
  let ce := s.companyEmployees
  if ce.isEmpty then
    (.error "Pas de donnees employes. Executez etape 4 avant.", s)
  else
    match runStepWithCapture (env.stopDuring 5) 5 (env.step5 ce) s with
    | (.ok (some dms), s') =>
      if dms.isEmpty then (.ok (some dms), s')
      else
        (.ok (some dms),
          updateStepState { s' with decisionMakers := dms } 5
            { resultCount := some dms.length })
    | r => r

/-- `execute_step_6`. -/
def executeStep6 (env : PipelineEnv) (s : SessionState) :
    Except String (Option (List DecisionMaker)) × SessionState :=
  let dms := s.decisionMakers
  if dms.isEmpty then
    (.error "Pas de decideurs. Executez les etapes 4-5 avant.", s)
  else
    match runStepWithCapture (env.stopDuring 6) 6 (env.step6 dms) s with
    | (.ok (some enriched), s') =>
      if enriched.isEmpty then (.ok (some enriched), s')
      else
        (.ok (some enriched),
          updateStepState { s' with enrichedContacts := enriched } 6
            { resultCount :=
                some (enriched.filter (fun c => truthyOpt c.email)).length })
    | r => r

/-- `execute_step_7`. -/
def executeStep7 (env : PipelineEnv) (s : SessionState) :
    Except String (Option String) × SessionState :=
  let contacts := s.enrichedContacts
  if contacts.isEmpty then
    (.error "Pas de contacts enrichis. Executez etape 6 avant.", s)
  else
    match runStepWithCapture (env.stopDuring 7) 7 (env.step7 contacts) s with
    | (.ok (some filepath), s') =>
      if filepath.isEmpty then (.ok (some filepath), s')
      else
        (.ok (some filepath),
          updateStepState { s' with contactsCsvPath := some filepath } 7
            { resultCount := some contacts.length })
    | r => r

/-- The decision makers `use_pappers_leaders` derives from the embedded
`dirigeants` of the accumulated companies. -/
def deriveLeaders (companies : List Company) : List DecisionMaker :=
  companies.flatMap fun c =>
    c.dirigeants.map fun d =>
      { name := d.nom
        title := d.qualite
        entreprise := some c.nom
        siren := some c.siren
        personaType := some "Dirigeant" }

/-- `use_pappers_leaders()`. -/
def usePappersLeaders (s : SessionState) :
    List DecisionMaker × SessionState :=
  let companies := s.companies
  let s1 := updateStepState s 4 { status := some .skipped }
  let dms := deriveLeaders companies
  let s2 := { s1 with decisionMakers := dms }
  let s4 := updateStepState (tick s2).2 5
    { status := some .completed
      resultCount := some dms.length
      completedAt := some (some (tick s2).1) }
  (dms, addStepLog s4 5 "Mode simplifie: dirigeants extraits de Pappers")

/-- Steps 6 and 7 of `run_full_pipeline` (shared by both branches of
the skip conditional). -/
def runPhase67 (env : PipelineEnv) (s : SessionState) :
    Bool × SessionState :=
  match executeStep6 env s with
  | (.error _, s6) => (false, s6)
  | (.ok none, s6) => (false, s6)
  | (.ok (some enriched), s6) =>
    if enriched.isEmpty || s6.stopRequested then (false, s6)
    else
      match executeStep7 env s6 with
      | (.error _, s7) => (false, s7)
      | (.ok _, s7) =>
        (true, { (tick s7).2 with pipelineCompletedAt := some (tick s7).1 })

/-- The skip conditional of `run_full_pipeline`: either
`use_pappers_leaders` or steps 4-5, then steps 6-7. -/
def runPhase45 (env : PipelineEnv) (skipPhantombuster : Bool)
    (s : SessionState) : Bool × SessionState :=
  if skipPhantombuster then
    let (_, s') := usePappersLeaders s
    runPhase67 env s'
  else
    match executeStep4 env s with
    | (.error _, s4) => (false, s4)
    | (.ok none, s4) => (false, s4)
    | (.ok (some ce), s4) =>
      if ce.isEmpty || s4.stopRequested then (false, s4)
      else
        match executeStep5 env s4 with
        | (.error _, s5) => (false, s5)
        | (.ok none, s5) => (false, s5)
        | (.ok (some dms), s5) =>
          if dms.isEmpty || s5.stopRequested then (false, s5)
          else runPhase67 env s5

/-- The body of `run_full_pipeline` inside its try block; the
surrounding `except Exception: return False` is the `.error` cases and
the `finally` clause is applied by `runFullPipeline`. -/
def runFullPipelineBody (env : PipelineEnv) (maxCompanies : Option Nat)
    (skipPhantombuster : Bool) (s : SessionState) : Bool × SessionState :=
  match executeStep1 env maxCompanies s with
  | (.error _, s1) => (false, s1)
  | (.ok none, s1) => (false, s1)
  | (.ok (some companies), s1) =>
    if companies.isEmpty || s1.stopRequested then (false, s1)
    else
      match executeStep2 env s1 with
      | (.error _, s2) => (false, s2)
      | (.ok none, s2) => (false, s2)
      | (.ok (some enriched), s2) =>
        if enriched.isEmpty || s2.stopRequested then (false, s2)
        else
          match executeStep3 env s2 with
          | (.error _, s3) => (false, s3)
          | (.ok _, s3) =>
            if s3.stopRequested then (false, s3)
            else runPhase45 env skipPhantombuster s3

/-- The `finally` clause shared by `run_full_pipeline` and
`run_single_step`: clear `is_running` on the way out. -/
def clearRunning (r : Bool × SessionState) : Bool × SessionState :=
  (r.1, { r.2 with isRunning := false })

/-- `run_full_pipeline(max_companies, skip_phantombuster)`: sets
`is_running`, runs the body, and the `finally` clause clears
`is_running` on every exit path. -/
def runFullPipeline (env : PipelineEnv) (maxCompanies : Option Nat)
    (skipPhantombuster : Bool) (s : SessionState) : Bool × SessionState :=
  let sIn := { s with isRunning := true }
  let s0 := { (tick sIn).2 with pipelineStartedAt := some (tick sIn).1 }
  clearRunning (runFullPipelineBody env maxCompanies skipPhantombuster s0)

/-- Interpretation of one `execute_step_k` outcome by
`run_single_step`: `return result is not None`, with a raised exception
caught and turned into `False`. -/
def stepCallResult {α : Type} (r : Except String (Option α) × SessionState) :
    Bool × SessionState :=
  match r with
  | (.ok (some _), s) => (true, s)
  | (.ok none, s) => (false, s)
  | (.error _, s) => (false, s)

/-- `run_single_step(step, max_companies)`; the `finally` clause clears
`is_running` on every exit path, including the invalid-step raise. -/
def runSingleStep (env : PipelineEnv) (step : Nat)
    (maxCompanies : Option Nat) (s : SessionState) : Bool × SessionState :=
  let s0 := { s with isRunning := true }
  clearRunning
    (match step with
     | 1 => stepCallResult (executeStep1 env maxCompanies s0)
     | 2 => stepCallResult (executeStep2 env s0)
     | 3 => stepCallResult (executeStep3 env s0)
     | 4 => stepCallResult (executeStep4 env s0)
     | 5 => stepCallResult (executeStep5 env s0)
     | 6 => stepCallResult (executeStep6 env s0)
     | 7 => stepCallResult (executeStep7 env s0)
     | _ => (false, s0))

/-- `load_companies_from_csv(filepath)`: the CSV read outcome is the
oracle `readResult`; on success steps 1-3 are marked COMPLETED. -/
def loadCompaniesFromCsv (readResult : Except String (List Company))
    (s : SessionState) : Option (List Company) × SessionState :=
  match readResult with
  | .error _ => (none, s)
  | .ok companies =>
    let s1 := { s with companies := companies }
    let mark := fun (st : SessionState) (k : Nat) =>
      addStepLog
        (updateStepState (tick st).2 k
          { status := some .completed
            resultCount := some companies.length
            completedAt := some (some (tick st).1) })
        k "Charge depuis CSV"
    (some companies, mark (mark (mark s1 1) 2) 3)

/-! ## Bulk job polling (services/captely.py, services/phantombuster.py)

Both wait loops are `while time.time() - start_time < timeout` loops
that sleep `poll_interval` seconds per iteration.  We idealize the
timing: iteration `t` (0-based) happens at elapsed time
`t * poll_interval`, so the loop body runs while
`t * poll_interval < timeout`.  The provider's answer to the `t`-th
status query is an oracle `polls t`.  A fuel argument (`timeout`
iterations suffice whenever `poll_interval ≥ 1`) makes the recursion
structural. -/

/-- Outcome of one Captely `GET /enrich/status/{job_id}` call:
a transport error (`requests` exception, including `raise_for_status`
on a non-2xx reply) or a parsed body carrying a `status` string. -/
inductive CaptelyPoll where
  | transportErr
  | ok (status : String) (progress total : Nat)
deriving DecidableEq, Repr

/-- `CaptelyClient.get_bulk_status`: a transport error is caught and
returned as a body with status `"error"`. -/
def captelyStatusOf : CaptelyPoll → String
  | .transportErr => "error"
  | .ok st _ _ => st

/-- The loop of `CaptelyClient.wait_for_bulk_completion`. -/
def captelyWaitGo (polls : Nat → CaptelyPoll) (timeout interval : Nat) :
    Nat → Nat → Bool
  | _, 0 => false
  | t, fuel + 1 =>
    if t * interval < timeout then
      let st := captelyStatusOf (polls t)
      if st = "completed" then true
      else if st = "failed" || st = "error" then false
      else captelyWaitGo polls timeout interval (t + 1) fuel
    else false

/-- `CaptelyClient.wait_for_bulk_completion(job_id, timeout,
poll_interval)` with the status oracle `polls`. -/
def captelyWaitForBulkCompletion (polls : Nat → CaptelyPoll)
    (timeout interval : Nat) : Bool :=
  captelyWaitGo polls timeout interval 0 timeout

/-- Outcome of one Phantombuster `fetch-output` call: a transport error
(raised, caught by the loop's `except`), a non-200 reply (no exception,
body ignored), or a 200 body with optional `status` and
`isAgentRunning`. -/
inductive PhantomPoll where
  | transportErr
  | httpErr (code : Nat)
  | ok (status : Option String) (isAgentRunning : Bool)
deriving DecidableEq, Repr

/-- The loop of `PhantombusterClient.wait_for_completion`. -/
def phantomWaitGo (polls : Nat → PhantomPoll) (timeout interval : Nat) :
    Nat → Nat → Bool
  | _, 0 => false
  | t, fuel + 1 =>
    if t * interval < timeout then
      match polls t with
      | .transportErr => phantomWaitGo polls timeout interval (t + 1) fuel
      | .httpErr _ => phantomWaitGo polls timeout interval (t + 1) fuel
      | .ok status isRunning =>
        if status = some "finished" then true
        else if status = some "launch error" then false
        else if !isRunning && status ≠ some "starting" &&
            status ≠ some "running" then false
        else phantomWaitGo polls timeout interval (t + 1) fuel
    else false

/-- `PhantombusterClient.wait_for_completion(container_id, timeout,
poll_interval)` with the status oracle `polls`. -/
def phantomWaitForCompletion (polls : Nat → PhantomPoll)
    (timeout interval : Nat) : Bool :=
  phantomWaitGo polls timeout interval 0 timeout

/-! ## Per-entity batch runner (services/phantombuster.py,
`extract_employees_batch`)

The per-entity work `extract_employees_from_linkedin(linkedin_url)` is
the oracle `worker`; `.error` is a raised exception (the source has no
try/except around the call), `.ok emps` a normal return (possibly
empty).  Dict insertion `results[siren] = ...` is modelled as an
association-list append (later entries shadow earlier ones on duplicate
sirens). -/

/-- The sequential company loop of `extract_employees_batch`. -/
def extractBatchGo (worker : String → Except String (List Employee)) :
    List Company → List (String × BatchEntry) →
    Except String (List (String × BatchEntry))
  | [], acc => .ok acc
  | c :: rest, acc =>
    match worker (c.linkedinUrl.getD "") with
    | .error e => .error e
    | .ok emps =>
      extractBatchGo worker rest (acc ++ [(c.siren, ⟨c, emps⟩)])

/-- `extract_employees_batch(companies, max_workers)`: filters the
companies with a LinkedIn URL and processes them sequentially (the
source ignores `max_workers` and runs a plain `for` loop). -/
def extractEmployeesBatch
    (worker : String → Except String (List Employee))
    (companies : List Company) :
    Except String (List (String × BatchEntry)) :=
  let withLinkedin := companies.filter (fun c => truthyOpt c.linkedinUrl)
  if withLinkedin.isEmpty then .ok []
  else extractBatchGo worker withLinkedin []

/-! ## Contact enrichment (services/captely.py,
`enrich_contacts_with_captely`) -/

/-- One prepared entry of `contacts_for_api`. -/
structure ContactForApi where
  firstName : String
  lastName : String
  company : String
  linkedinUrl : String
  originalIndex : Nat
deriving DecidableEq, Repr

/-- Python `o.get(k) or ""`: the stored string when truthy, else `""`. -/
def orEmpty (o : Option String) : String :=
  if truthyOpt o then o.getD "" else ""

/-- Python `s.split(" ", 1)` as (first part, rest). -/
def splitNameOnce (s : String) : String × String :=
  let parts := s.splitOn " "
  (parts.headD "", String.intercalate " " parts.tail)

/-- The per-record preparation of `enrich_contacts_with_captely`:
returns the `contacts_for_api` entry for decision maker `dm` at
original index `i`, or `none` when the record is skipped for missing
data. -/
def contactOfDm (i : Nat) (dm : DecisionMaker) : Option ContactForApi :=
  let fn0 := orEmpty dm.firstName
  let ln0 := orEmpty dm.lastName
  let (fn, ln) :=
    if fn0.isEmpty || ln0.isEmpty then splitNameOnce (dm.name.getD "")
    else (fn0, ln0)
  let company :=
    match dm.entreprise with
    | some v => v
    | none => dm.company.getD ""
  if fn.isEmpty || ln.isEmpty || company.isEmpty then none
  else some ⟨fn, ln, company, dm.linkedinUrl.getD "", i⟩

/-- The `contacts_for_api` list built from the input records. -/
def validContacts (dms : List DecisionMaker) : List ContactForApi :=
  dms.enum.filterMap fun p => contactOfDm p.1 p.2

/-- The lowercased composite key used by `contact_map`. -/
def contactKey (fn ln comp : String) : String :=
  (fn ++ "_" ++ ln ++ "_" ++ comp).toLower

/-- Lookup in `contact_map`: the map is populated in list order with
overwrites, so a key resolves to the LAST matching contact's original
index. -/
def contactMapFind (contacts : List ContactForApi) (key : String) :
    Option Nat :=
  ((contacts.filter fun c =>
      contactKey c.firstName c.lastName c.company = key).getLast?).map
    (fun c => c.originalIndex)

/-- One record of the bulk results payload (fields read with `.get`). -/
structure CaptelyResult where
  firstName : String := ""
  lastName : String := ""
  company : String := ""
  email : Option String := none
  emailVerified : Bool := false
  phone : Option String := none
  phoneType : Option String := none
deriving DecidableEq, Repr

/-- Outcome of one unitary `enrich_contact` call: `raised` for an
exception escaping the call (caught per record by the fallback loop),
`emptyResp` for a falsy (empty) response dict whose fields are not
applied, `resp` for a truthy response dict — a transport error is
caught inside `enrich_contact` and returned as a truthy error dict,
i.e. `resp none false none none`. -/
inductive UnitaryOutcome where
  | raised (msg : String)
  | emptyResp
  | resp (email : Option String) (emailVerified : Bool)
      (phone : Option String) (phoneType : Option String)
deriving DecidableEq, Repr

/-- Write one enrichment result's fields into a decision maker dict. -/
def applyResultFields (dm : DecisionMaker) (em : Option String)
    (ev : Bool) (ph : Option String) (pt : Option String) :
    DecisionMaker :=
  { dm with
    email := em
    emailVerified := ev
    phone := ph
    phoneType := pt }

/-- The environment of one `enrich_contacts_with_captely` run: the
bulk submission's job id (or `None` on submission failure), the wait
outcome, the extracted results list, and the outcome of the `k`-th
unitary call of the fallback loop. -/
structure CaptelyEnv where
  bulkJobId : Option String
  waitOk : Bool
  bulkResults : List CaptelyResult
  unitary : Nat → UnitaryOutcome

/-- The result-mapping loop of the bulk branch: fold the results,
matching each back through `contact_map` and counting records with an
email or phone. -/
def applyBulkResults (contacts : List ContactForApi)
    (dms : List DecisionMaker) (results : List CaptelyResult) :
    List DecisionMaker × Nat :=
  results.foldl
    (fun acc r =>
      let key := contactKey r.firstName r.lastName r.company
      match contactMapFind contacts key with
      | some idx =>
        (acc.1.set idx
          (applyResultFields (acc.1.getD idx {}) r.email r.emailVerified
            r.phone r.phoneType),
         acc.2 + (if truthyOpt r.email || truthyOpt r.phone then 1 else 0))
      | none => acc)
    (dms, 0)

/-- The per-record unitary fallback loop (`k` counts issued calls). -/
def fallbackGo (unitary : Nat → UnitaryOutcome) :
    List ContactForApi → Nat → List DecisionMaker → Nat →
    List DecisionMaker × Nat
  | [], _, dms, cnt => (dms, cnt)
  | c :: rest, k, dms, cnt =>
    match unitary k with
    | .raised _ => fallbackGo unitary rest (k + 1) dms cnt
    | .emptyResp => fallbackGo unitary rest (k + 1) dms cnt
    | .resp em ev ph pt =>
      fallbackGo unitary rest (k + 1)
        (dms.set c.originalIndex
          (applyResultFields (dms.getD c.originalIndex {}) em ev ph pt))
        (cnt + if truthyOpt em || truthyOpt ph then 1 else 0)

/-- Observable outcome of `enrich_contacts_with_captely`, instrumented
with how many bulk submissions were issued, whether the bulk path
succeeded, whether the fallback ran, how many unitary calls it issued
and its `enriched_count`. -/
structure EnrichOutcome where
  contacts : List DecisionMaker
  bulkAttempts : Nat
  bulkSuccess : Bool
  fallbackRan : Bool
  unitaryCalls : Nat
  fallbackEnriched : Nat
deriving DecidableEq, Repr

/-- `enrich_contacts_with_captely(decision_makers, enrich_phone)`. -/
def enrichContactsWithCaptely (env : CaptelyEnv)
    (dms : List DecisionMaker) : EnrichOutcome :=
  if dms.isEmpty then ⟨[], 0, false, false, 0, 0⟩
  else
    let contacts := validContacts dms
    if contacts.isEmpty then ⟨dms, 0, false, false, 0, 0⟩
    else
      let bulkOk :=
        env.bulkJobId.isSome && env.waitOk && !env.bulkResults.isEmpty
      if bulkOk then
        ⟨(applyBulkResults contacts dms env.bulkResults).1, 1, true,
          false, 0, 0⟩
      else
        let fb := fallbackGo env.unitary contacts 0 dms 0
        ⟨fb.1, 1, false, true, contacts.length, fb.2⟩

/-- A pipeline environment whose stage 1 raises. -/
def c5FailEnv : PipelineEnv :=
  { step1 := fun _ => .error "boom"
    step2 := fun _ => .error "unused"
    step3 := fun _ => .error "unused"
    step4 := fun _ => .error "unused"
    step5 := fun _ => .error "unused"
    step6 := fun _ => .error "unused"
    step7 := fun _ => .error "unused" }

/-! ## Rate limiter (utils/rate_limiter.py)

`RateLimiter.wait_if_needed` over an idealized clock: the caller's
`time.time()` reading is the input `now`; if the limiter sleeps, the
post-sleep reading is exactly the wake target (zero processing time).
Timestamps are integers — any finite schedule of rational instants
rescales to integers, so nothing is lost for the claimed window
property. -/

/-- Rate limiter configuration. -/
structure RateLimiter where
  maxCalls : Nat
  period : Int

/-- `wait_if_needed()` at clock reading `now` with timestamp deque
`calls` (sorted ascending, oldest first): evict timestamps strictly
older than `now - period`, sleep until the oldest expires when the
window is full, then append the completion timestamp.  Returns the new
deque and the completion (appended) timestamp. -/
def waitIfNeeded (rl : RateLimiter) (calls : List Int) (now : Int) :
    List Int × Int :=
  let kept := calls.dropWhile (fun t => decide (t < now - rl.period))
  if rl.maxCalls ≤ kept.length then
    let sleepTime := kept.headD 0 - (now - rl.period)
    if 0 < sleepTime then
      (kept ++ [now + sleepTime], now + sleepTime)
    else (kept ++ [now], now)
  else (kept ++ [now], now)

/-- The completion (appended) timestamp of one `wait_if_needed` call:
`now` itself, or the wake-up instant when the window is full. -/
def waitCompletion (rl : RateLimiter) (calls : List Int) (now : Int) :
    Int :=
  let kept := calls.dropWhile (fun t => decide (t < now - rl.period))
  if rl.maxCalls ≤ kept.length then
    if 0 < kept.headD 0 - (now - rl.period) then
      now + (kept.headD 0 - (now - rl.period))
    else now
  else now

/-- Run a sequence of `wait_if_needed` calls at the given clock
readings, from deque `calls`; returns the final deque and the list of
completion timestamps in order. -/
def runLimiter (rl : RateLimiter) :
    List Int → List Int → List Int × List Int
  | [], calls => (calls, [])
  | now :: rest, calls =>
    let r := waitIfNeeded rl calls now
    let f := runLimiter rl rest r.1
    (f.1, r.2 :: f.2)

/-- The completion timestamps of a call sequence started on a fresh
limiter. -/
def limiterCompletions (rl : RateLimiter) (nows : List Int) : List Int :=
  (runLimiter rl nows []).2

/-- Sequential validity of a clock-reading sequence: each call's
reading is at least (`Bool` strictness flag: strictly greater than) the
previous call's completion timestamp, starting from deque `calls` after
a call completing at `prev`. -/
def seqValidFrom (rl : RateLimiter) (strict : Bool) :
    List Int → Int → List Int → Prop
  | _, _, [] => True
  | calls, prev, now :: rest =>
    (if strict then prev < now else prev ≤ now) ∧
      seqValidFrom rl strict (waitIfNeeded rl calls now).1
        (waitIfNeeded rl calls now).2 rest

instance (rl : RateLimiter) (strict : Bool) (calls : List Int)
    (prev : Int) (nows : List Int) :
    Decidable (seqValidFrom rl strict calls prev nows) := by
  induction nows generalizing calls prev with
  | nil => exact .isTrue trivial
  | cons now rest ih =>
    exact @instDecidableAnd _ _ inferInstance (ih _ _)

/-- Sequential validity of a whole call sequence started on a fresh
limiter; the first call's clock reading is unconstrained. -/
def seqValid (rl : RateLimiter) (strict : Bool) : List Int → Prop
  | [] => True
  | now :: rest =>
    seqValidFrom rl strict (waitIfNeeded rl [] now).1
      (waitIfNeeded rl [] now).2 rest

instance (rl : RateLimiter) (strict : Bool) (nows : List Int) :
    Decidable (seqValid rl strict nows) := by
  cases nows with
  | nil => exact .isTrue trivial
  | cons now rest => exact inferInstanceAs (Decidable (seqValidFrom _ _ _ _ _))

/-- Number of completion timestamps falling in the half-open trailing
window `(a, a + period]`. -/
def windowCount (rl : RateLimiter) (comps : List Int) (a : Int) : Nat :=
  comps.countP (fun t => decide (a < t) && decide (t ≤ a + rl.period))

/-- The limiter's run invariant: (1) every trailing window of length
`period` holds at most `maxCalls` completions; (2) the deque is a
suffix of the completion list and every completion evicted from it is
already staler than a full period before `prev` (the last completion);
(3) the deque holds at most `maxCalls + 1` entries, and when it
overflows to `maxCalls + 1` its oldest entry is stale. -/
def WInv (rl : RateLimiter) (d comps : List Int) (prev : Int) : Prop :=
  (∀ a, windowCount rl comps a ≤ rl.maxCalls) ∧
  (∃ j, j ≤ comps.length ∧ d = comps.drop j ∧
    ∀ x ∈ comps.take j, x < prev - rl.period) ∧
  d.length ≤ rl.maxCalls + 1 ∧
  (d.length = rl.maxCalls + 1 → d.headD 0 ≤ prev - rl.period)

/-- Whether one unitary call's outcome counts as an enrichment (a
truthy response dict carrying an email or a phone). -/
def unitarySucceeds : UnitaryOutcome → Bool
  | .resp em _ ph _ => truthyOpt em || truthyOpt ph
  | _ => false

/-! ## Status-transition vocabulary for claims about the tracker -/

/-- The edge set claimed for the step-status state machine:
PENDING→RUNNING→{COMPLETED, FAILED, SKIPPED} plus PENDING→SKIPPED. -/
def claimedEdge : StepStatus → StepStatus → Bool
  | .pending, .running => true
  | .running, .completed => true
  | .running, .failed => true
  | .running, .skipped => true
  | .pending, .skipped => true
  | _, _ => false

/-- The edge set the code actually produces within one
`run_full_pipeline` from a fresh state: the claimed edges (except the
unused RUNNING→SKIPPED) plus direct PENDING→COMPLETED and
PENDING→FAILED. -/
def amendedEdge : StepStatus → StepStatus → Bool
  | .pending, .running => true
  | .running, .completed => true
  | .running, .failed => true
  | .pending, .skipped => true
  | .pending, .completed => true
  | .pending, .failed => true
  | _, _ => false

/-- Every status write recorded in the trace is an amended edge. -/
def TraceOK (l : List (Nat × StepStatus × StepStatus)) : Prop :=
  ∀ e ∈ l, amendedEdge e.2.1 e.2.2 = true

/-- The C5 record invariant: `error_message` is non-null iff the
status is FAILED. -/
def goodRecord (r : StepState) : Prop :=
  r.errorMessage.isSome = true ↔ r.status = .failed

/-- The C5 invariant over the whole step dict. -/
def GoodSteps (s : SessionState) : Prop := ∀ k, goodRecord (s.steps k)

/-! ## Demonstration inputs used by witnesses and counterexamples -/

/-- Two decision makers that both survive the validity filter (the
second through the `name` split path). -/
def c6Dms : List DecisionMaker :=
  [{ firstName := some "Jean", lastName := some "Dupont",
     entreprise := some "Alpha" },
   { name := some "Anne Martin", entreprise := some "Beta" }]

/-- A Captely environment whose bulk submission returns no job id and
whose unitary calls enrich only the first contact. -/
def c6Env : CaptelyEnv :=
  { bulkJobId := none
    waitOk := false
    bulkResults := []
    unitary := fun k =>
      if k = 0 then .resp (some "jean.dupont@alpha.fr") true none none
      else .resp none false none none }

/-- A poll schedule whose first status query hits a transport error and
whose later queries report a completed job. -/
def c2CaptelyPolls : Nat → CaptelyPoll :=
  fun t => if t = 0 then .transportErr else .ok "completed" 0 0

/-- The analogous schedule for the Phantombuster loop (first query a
transport error, then a finished agent). -/
def c2PhantomPolls : Nat → PhantomPoll :=
  fun t => if t = 0 then .transportErr else .ok (some "finished") true

/-- A poll response that is neither a 200 reply nor a terminal state:
a transport error or a non-200 reply. -/
def phantomTransient : PhantomPoll → Bool
  | .transportErr => true
  | .httpErr _ => true
  | .ok _ _ => false

/-- Two companies with LinkedIn URLs; the worker raises on the first
URL and succeeds on the second. -/
def c3Companies : List Company :=
  [{ nom := "Alpha", siren := "111", linkedinUrl := some "urlA" },
   { nom := "Beta", siren := "222", linkedinUrl := some "urlB" }]

/-- A per-entity worker raising for `urlA`, returning an empty employee
list for `urlB` and one employee otherwise. -/
def c3Worker : String → Except String (List Employee) :=
  fun u =>
    if u = "urlA" then .error "boom"
    else if u = "urlB" then .ok []
    else .ok [{ name := "Zoe Z", firstName := "Zoe", lastName := "Z",
                title := "CEO", linkedinUrl := "lkZ" }]

/-- Three companies, each with two embedded `dirigeants`. -/
def c8Companies : List Company :=
  [{ nom := "Alpha", siren := "111",
     dirigeants := [⟨some "Jean Dupont", some "President"⟩,
                    ⟨some "Anne Martin", some "Directeur general"⟩] },
   { nom := "Beta", siren := "222",
     dirigeants := [⟨some "Luc Bernard", some "Gerant"⟩,
                    ⟨some "Eva Petit", some "Directeur"⟩] },
   { nom := "Gamma", siren := "333",
     dirigeants := [⟨some "Omar Leroy", some "President"⟩,
                    ⟨some "Lou Moreau", some "DG"⟩] }]

/-- A pipeline environment delivering `c8Companies` at stage 1 and
succeeding at the other stages, with no stop request. -/
def c8Env : PipelineEnv :=
  { step1 := fun _ => .ok c8Companies
    step2 := fun cs => .ok cs
    step3 := fun _ => .ok "companies.csv"
    step4 := fun _ => .ok []
    step5 := fun _ => .ok []
    step6 := fun dms => .ok dms
    step7 := fun _ => .ok "contacts.csv" }

/-- A pipeline environment whose stage 1 returns an empty company
list. -/
def c7Env : PipelineEnv :=
  { step1 := fun _ => .ok []
    step2 := fun _ => .error "unused"
    step3 := fun _ => .error "unused"
    step4 := fun _ => .error "unused"
    step5 := fun _ => .error "unused"
    step6 := fun _ => .error "unused"
    step7 := fun _ => .error "unused" }

/-- A pipeline environment where stages 1 and 2 succeed and the user
presses stop while stage 2 executes. -/
def c4Env : PipelineEnv :=
  { step1 := fun _ => .ok [{ nom := "Alpha", siren := "111" }]
    step2 := fun cs => .ok cs
    step3 := fun _ => .error "unused"
    step4 := fun _ => .error "unused"
    step5 := fun _ => .error "unused"
    step6 := fun _ => .error "unused"
    step7 := fun _ => .error "unused"
    stopDuring := fun k => k == 2 }

/-! ## Theorems -/

/-- C10: whenever `run_full_pipeline` or `run_single_step` returns —
run completed, early return on stop/empty result, or a stage function
raised — the session flag `is_running` is `False` on exit, because the
`finally` clause clears it on every path. -/
theorem c10_isRunning_false_on_exit :
    ∀ (env : PipelineEnv) (mc : Option Nat) (skip : Bool) (step : Nat)
      (s : SessionState),
      (runFullPipeline env mc skip s).2.isRunning = false ∧
      (runSingleStep env step mc s).2.isRunning = false := by
  intro env mc skip step s
  exact ⟨rfl, rfl⟩

/-- C2 counterexample: in Captely's `wait_for_bulk_completion` a single
transport error on the first status query makes the loop return a
failure outcome immediately (the same schedule without the error
succeeds), because `get_bulk_status` maps the error to status
`"error"`, which the loop treats as a terminal job failure.  The
Phantombuster loop, by contrast, survives the same transient error. -/
theorem c2_counterexample :
    captelyWaitForBulkCompletion c2CaptelyPolls 600 5 = false ∧
    captelyWaitForBulkCompletion (fun _ => CaptelyPoll.ok "completed" 0 0)
      600 5 = true ∧
    phantomWaitForCompletion c2PhantomPolls 300 10 = true :=
  ⟨rfl, rfl, rfl⟩

/-- Helper for C2: the Phantombuster poll loop rides out any run of
transient polls (transport errors or non-200 replies) before a
finishing poll within the timeout. -/
theorem phantomWaitGo_transient_true (polls : Nat → PhantomPoll)
    (timeout interval k : Nat) (hk : k * interval < timeout)
    (hfin : polls k = .ok (some "finished") true) :
    ∀ (fuel t : Nat), t ≤ k → k < t + fuel →
      (∀ j, t ≤ j → j < k → phantomTransient (polls j) = true) →
      phantomWaitGo polls timeout interval t fuel = true := by
  intro fuel
  induction fuel with
  | zero =>
    intro t ht hlt _
    omega
  | succ n ih =>
    intro t ht hlt htrans
    have hcond : t * interval < timeout :=
      lt_of_le_of_lt (Nat.mul_le_mul_right _ ht) hk
    by_cases htk : t = k
    · subst htk
      unfold phantomWaitGo
      simp [hcond, hfin]
    · have htlt : t < k := lt_of_le_of_ne ht htk
      have htr : phantomTransient (polls t) = true := htrans t le_rfl htlt
      have hrec : phantomWaitGo polls timeout interval (t + 1) n = true := by
        apply ih (t + 1) htlt (by omega)
        intro j hj hjk
        exact htrans j (by omega) hjk
      unfold phantomWaitGo
      cases hp : polls t with
      | transportErr => simp [hcond, hp, hrec]
      | httpErr c => simp [hcond, hp, hrec]
      | ok st ir => rw [hp] at htr; simp [phantomTransient] at htr

/-- C2 amended: Phantombuster's `wait_for_completion` does treat a
failing status query (transport error or non-200 reply) as
still-in-progress and keeps polling, so transient errors before a
finishing poll within the timeout never produce a failure outcome.
Captely's `wait_for_bulk_completion` does not have this property: it
returns failure on the first transport error (see the
counterexample). -/
theorem c2_amended (polls : Nat → PhantomPoll) (timeout interval k : Nat)
    (hI : 0 < interval) (hk : k * interval < timeout)
    (htrans : ∀ j, j < k → phantomTransient (polls j) = true)
    (hfin : polls k = .ok (some "finished") true) :
    phantomWaitForCompletion polls timeout interval = true := by
  have hkf : k < 0 + timeout := by
    have h1 : k ≤ k * interval := Nat.le_mul_of_pos_right k hI
    omega
  exact phantomWaitGo_transient_true polls timeout interval k hk hfin
    timeout 0 (Nat.zero_le k) hkf (fun j _ hj => htrans j hj)

/-- Witness for C2 amended at a concrete schedule: one transport error,
then a finishing poll, inside a 300 s / 10 s budget. -/
theorem c2_amended_witness :
    (0 : Nat) < 10 ∧ 1 * 10 < 300 ∧
    phantomWaitForCompletion c2PhantomPolls 300 10 = true := by
  refine ⟨by decide, by decide, ?_⟩
  exact c2_amended c2PhantomPolls 300 10 1 (by decide) (by decide)
    (by decide) rfl

/-- C3 counterexample: `extract_employees_batch` has no per-entity
exception isolation — when the per-entity work raises for exactly one
of two entities, the runner itself raises (returns `.error`) instead of
returning a mapping with the other entity's result. -/
theorem c3_counterexample :
    extractEmployeesBatch c3Worker c3Companies = .error "boom" := rfl

/-- Helper for C3: the sequential loop on an all-succeeding suffix. -/
theorem extractBatchGo_ok (worker : String → Except String (List Employee)) :
    ∀ (l : List Company) (acc : List (String × BatchEntry)),
      (∀ c ∈ l, (worker (c.linkedinUrl.getD "")).isOk = true) →
      extractBatchGo worker l acc =
        .ok (acc ++ l.map fun c =>
          (c.siren, ⟨c, (worker (c.linkedinUrl.getD "")).toOption.getD []⟩)) := by
  intro l
  induction l with
  | nil => intro acc _; simp [extractBatchGo]
  | cons c rest ih =>
    intro acc h
    have hc := h c (List.mem_cons_self c rest)
    cases hw : worker (c.linkedinUrl.getD "") with
    | error e => rw [hw] at hc; simp [Except.isOk, Except.toBool] at hc
    | ok emps =>
      simp only [extractBatchGo, hw]
      rw [ih _ (fun d hd => h d (List.mem_cons_of_mem c hd))]
      simp [hw, Except.toOption]

/-- C3 amended: the batch runner is sequential and isolates nothing: a
raised per-entity error propagates out of the runner (counterexample),
while in a run where the per-entity work raises for no entity, the
returned mapping has exactly one entry per company with a LinkedIn URL
— an entity whose work soft-fails with an empty employee list is
present with that empty list, not absent. -/
theorem c3_amended (worker : String → Except String (List Employee))
    (companies : List Company)
    (h : ∀ c ∈ companies.filter (fun c => truthyOpt c.linkedinUrl),
      (worker (c.linkedinUrl.getD "")).isOk = true) :
    extractEmployeesBatch worker companies =
      .ok ((companies.filter (fun c => truthyOpt c.linkedinUrl)).map
        fun c =>
          (c.siren, ⟨c, (worker (c.linkedinUrl.getD "")).toOption.getD []⟩)) := by
  unfold extractEmployeesBatch
  by_cases he :
      (companies.filter (fun c => truthyOpt c.linkedinUrl)).isEmpty = true
  · rw [List.isEmpty_iff] at he
    simp [he]
  · simp only [he, if_false, Bool.false_eq_true]
    exact extractBatchGo_ok worker _ [] h

/-- Witness for C3 amended: a soft-failing entity (empty employee list)
appears in the mapping with an empty list. -/
theorem c3_amended_witness :
    (∀ c ∈ (c3Companies.drop 1).filter (fun c => truthyOpt c.linkedinUrl),
      (c3Worker (c.linkedinUrl.getD "")).isOk = true) ∧
    extractEmployeesBatch c3Worker (c3Companies.drop 1) =
      .ok (((c3Companies.drop 1).filter
          (fun c => truthyOpt c.linkedinUrl)).map
        fun c =>
          (c.siren,
            ⟨c, (c3Worker (c.linkedinUrl.getD "")).toOption.getD []⟩)) :=
  ⟨by decide, c3_amended c3Worker (c3Companies.drop 1) (by decide)⟩

/-- C7 counterexample: when stage 1 returns an empty entity list the
run does halt with a failure result, but stage 1's record ends
COMPLETED — not FAILED, and the status vocabulary has no explicit
empty-result terminal state. -/
theorem c7_counterexample :
    (runFullPipeline c7Env none false initialSession).1 = false ∧
    ((runFullPipeline c7Env none false initialSession).2.steps 1).status =
      .completed ∧
    StepStatus.completed ≠ StepStatus.failed := by decide

/-- C7 amended: if stage 1 returns an empty entity list, the full
pipeline run halts immediately with a failure result, stage 1's record
ends COMPLETED with `result_count = 0`, and the records for stages 2..7
all remain PENDING. -/
theorem c7_amended (env : PipelineEnv) (mc : Option Nat) (skip : Bool)
    (h : env.step1 mc = .ok []) :
    (runFullPipeline env mc skip initialSession).1 = false ∧
    ((runFullPipeline env mc skip initialSession).2.steps 1).status =
      .completed ∧
    ((runFullPipeline env mc skip initialSession).2.steps 1).resultCount
      = 0 ∧
    ∀ k, 2 ≤ k →
      ((runFullPipeline env mc skip initialSession).2.steps k).status =
        .pending := by
  simp only [runFullPipeline, runFullPipelineBody, executeStep1,
    runStepWithCapture, h, initialSession, tick, updateStepState,
    applyUpdate, addStepLog, clearRunning]
  refine ⟨rfl, rfl, rfl, ?_⟩
  intro k hk
  have hk1 : k ≠ 1 := by omega
  simp [hk1]

/-- Witness for C7 amended at the concrete environment `c7Env`. -/
theorem c7_amended_witness :
    c7Env.step1 none = .ok [] ∧
    ((runFullPipeline c7Env none false initialSession).1 = false ∧
     ((runFullPipeline c7Env none false initialSession).2.steps 1).status
       = .completed ∧
     ((runFullPipeline c7Env none false
        initialSession).2.steps 1).resultCount = 0 ∧
     ∀ k, 2 ≤ k →
       ((runFullPipeline c7Env none false initialSession).2.steps k).status
         = .pending) :=
  ⟨rfl, c7_amended c7Env none false rfl⟩

/-- C4 counterexample: the stop flag set while stage 2 runs is observed
at the stage boundary after stage 2 completes; the run returns failure,
but stage 3's record remains PENDING — no stage is marked FAILED with a
stopped-by-user reason. -/
theorem c4_counterexample :
    (runFullPipeline c4Env none false initialSession).1 = false ∧
    ((runFullPipeline c4Env none false initialSession).2.steps 2).status =
      .completed ∧
    ((runFullPipeline c4Env none false initialSession).2.steps 3).status =
      .pending ∧
    StepStatus.pending ≠ StepStatus.failed := by decide

/-- C4 amended: when the cooperative stop flag is set during stage 2
(so it is first observed at the stage boundary after stage 2
completes), `run_full_pipeline` returns `False` before stage 3's work
begins; stage 2 ends COMPLETED and stage 3's record remains PENDING —
it is not marked FAILED. -/
theorem c4_amended (env : PipelineEnv) (mc : Option Nat) (skip : Bool)
    (c : Company) (cs : List Company) (e : Company) (es : List Company)
    (h1 : env.step1 mc = .ok (c :: cs))
    (hsd1 : env.stopDuring 1 = false)
    (h2 : env.step2 (c :: cs) = .ok (e :: es))
    (hsd2 : env.stopDuring 2 = true) :
    (runFullPipeline env mc skip initialSession).1 = false ∧
    ((runFullPipeline env mc skip initialSession).2.steps 2).status =
      .completed ∧
    ((runFullPipeline env mc skip initialSession).2.steps 3).status =
      .pending := by
  simp [runFullPipeline, runFullPipelineBody, executeStep1, executeStep2,
    runStepWithCapture, h1, h2, hsd1, hsd2, initialSession, tick,
    updateStepState, applyUpdate, addStepLog, clearRunning]

/-- Witness for C4 amended at the concrete environment `c4Env`. -/
theorem c4_amended_witness :
    c4Env.step1 none = .ok [{ nom := "Alpha", siren := "111" }] ∧
    c4Env.stopDuring 1 = false ∧
    c4Env.step2 [{ nom := "Alpha", siren := "111" }] =
      .ok [{ nom := "Alpha", siren := "111" }] ∧
    c4Env.stopDuring 2 = true ∧
    ((runFullPipeline c4Env none false initialSession).1 = false ∧
     ((runFullPipeline c4Env none false initialSession).2.steps 2).status
       = .completed ∧
     ((runFullPipeline c4Env none false initialSession).2.steps 3).status
       = .pending) :=
  ⟨rfl, rfl, rfl, rfl,
    c4_amended c4Env none false _ [] _ [] rfl rfl rfl rfl⟩

/-- C8: with the skip-extraction branch taken on 3 companies each
carrying 2 embedded leadership records, `use_pappers_leaders` derives
exactly 6 contacts — one per leadership record, tagged with the
company's name (`entreprise`) and identifier (`siren`) — and the run
sets stage 4 to SKIPPED and stage 5 to COMPLETED with
`result_count = 6`. -/
theorem c8_skip_branch_derivation :
    ((runFullPipeline c8Env none true initialSession).2.steps 4).status =
      .skipped ∧
    ((runFullPipeline c8Env none true initialSession).2.steps 5).status =
      .completed ∧
    ((runFullPipeline c8Env none true
        initialSession).2.steps 5).resultCount = 6 ∧
    (runFullPipeline c8Env none true initialSession).2.decisionMakers =
      [{ name := some "Jean Dupont", title := some "President",
         entreprise := some "Alpha", siren := some "111",
         personaType := some "Dirigeant" },
       { name := some "Anne Martin", title := some "Directeur general",
         entreprise := some "Alpha", siren := some "111",
         personaType := some "Dirigeant" },
       { name := some "Luc Bernard", title := some "Gerant",
         entreprise := some "Beta", siren := some "222",
         personaType := some "Dirigeant" },
       { name := some "Eva Petit", title := some "Directeur",
         entreprise := some "Beta", siren := some "222",
         personaType := some "Dirigeant" },
       { name := some "Omar Leroy", title := some "President",
         entreprise := some "Gamma", siren := some "333",
         personaType := some "Dirigeant" },
       { name := some "Lou Moreau", title := some "DG",
         entreprise := some "Gamma", siren := some "333",
         personaType := some "Dirigeant" }] := by decide

/-- Helper for C6: counting over `range (n + 1)` by splitting off the
head index of a shifted predicate. -/
theorem countP_range_shift (q : Nat → Bool) (k n : Nat) :
    (List.range (n + 1)).countP (fun j => q (k + j)) =
      (if q k then 1 else 0) +
        (List.range n).countP (fun j => q (k + 1 + j)) := by
  rw [List.range_succ_eq_map, List.countP_cons, List.countP_map]
  rw [Nat.add_comm (List.countP _ _) _]
  congr 1
  apply List.countP_congr
  intro a _
  have h : k + (a + 1) = k + 1 + a := by omega
  simp [Function.comp, h]

/-- Helper for C6: the fallback loop's `enriched_count` is the number
of issued unitary calls whose outcome carried an email or phone —
each record contributes according to its own outcome. -/
theorem fallbackGo_count (unitary : Nat → UnitaryOutcome) :
    ∀ (l : List ContactForApi) (k : Nat) (dms : List DecisionMaker)
      (cnt : Nat),
      (fallbackGo unitary l k dms cnt).2 =
        cnt + (List.range l.length).countP
          (fun j => unitarySucceeds (unitary (k + j))) := by
  intro l
  induction l with
  | nil => intro k dms cnt; simp [fallbackGo]
  | cons c rest ih =>
    intro k dms cnt
    have hshift :=
      countP_range_shift (fun t => unitarySucceeds (unitary t)) k rest.length
    cases hu : unitary k with
    | raised m =>
      simp only [fallbackGo, hu]
      rw [ih, List.length_cons, hshift, hu]
      simp [unitarySucceeds]
    | emptyResp =>
      simp only [fallbackGo, hu]
      rw [ih, List.length_cons, hshift, hu]
      simp [unitarySucceeds]
    | resp em ev ph pt =>
      simp only [fallbackGo, hu]
      rw [ih, List.length_cons, hshift, hu]
      simp only [unitarySucceeds]
      omega

/-- C6: in `enrich_contacts_with_captely` (on an input with at least
one valid record) the bulk submission is attempted exactly once; the
per-record unitary fallback runs iff the bulk path fails totally (no
job id, job not completed, or no results returned); on total bulk
failure a unitary call is issued for every valid input record and the
final enriched count is the per-record tally of outcomes carrying an
email or phone. -/
theorem c6_bulk_once_then_unitary_fallback (env : CaptelyEnv)
    (dms : List DecisionMaker) (h : validContacts dms ≠ []) :
    (enrichContactsWithCaptely env dms).bulkAttempts = 1 ∧
    ((enrichContactsWithCaptely env dms).fallbackRan = true ↔
      ¬(env.bulkJobId.isSome = true ∧ env.waitOk = true ∧
        env.bulkResults ≠ [])) ∧
    ((enrichContactsWithCaptely env dms).fallbackRan = true →
      (enrichContactsWithCaptely env dms).unitaryCalls =
        (validContacts dms).length) ∧
    ((enrichContactsWithCaptely env dms).fallbackRan = true →
      (enrichContactsWithCaptely env dms).fallbackEnriched =
        (List.range (validContacts dms).length).countP
          (fun k => unitarySucceeds (env.unitary k))) := by
  have hdms : dms.isEmpty = false := by
    cases dms with
    | nil => simp [validContacts] at h
    | cons a l => rfl
  have hvc : (validContacts dms).isEmpty = false := by
    cases hv : validContacts dms with
    | nil => exact absurd hv h
    | cons a l => rfl
  by_cases hb : (env.bulkJobId.isSome && env.waitOk &&
      !env.bulkResults.isEmpty) = true
  · have hconj : env.bulkJobId.isSome = true ∧ env.waitOk = true ∧
        env.bulkResults ≠ [] := by
      simp only [Bool.and_eq_true, Bool.not_eq_true',
        List.isEmpty_eq_false] at hb
      exact ⟨hb.1.1, hb.1.2, hb.2⟩
    refine ⟨?_, ?_, ?_, ?_⟩
    · simp [enrichContactsWithCaptely, hdms, hvc, hb]
    · simp [enrichContactsWithCaptely, hdms, hvc, hb, hconj.1,
        hconj.2.1, hconj.2.2]
    · intro hf
      simp [enrichContactsWithCaptely, hdms, hvc, hb] at hf
    · intro hf
      simp [enrichContactsWithCaptely, hdms, hvc, hb] at hf
  · have hconj : ¬(env.bulkJobId.isSome = true ∧ env.waitOk = true ∧
        env.bulkResults ≠ []) := by
      intro hc
      exact hb (by simp [hc.1, hc.2.1, hc.2.2])
    refine ⟨?_, ?_, ?_, ?_⟩
    · simp [enrichContactsWithCaptely, hdms, hvc, hb]
    · simp [enrichContactsWithCaptely, hdms, hvc, hb, hconj]
    · intro _
      simp [enrichContactsWithCaptely, hdms, hvc, hb]
    · intro _
      simp only [enrichContactsWithCaptely, hdms, hvc, hb]
      simp only [Bool.false_eq_true, if_false]
      rw [fallbackGo_count]
      simp

/-- Witness for C6 at a concrete environment whose bulk submission
returns no job id. -/
theorem c6_bulk_once_witness :
    validContacts c6Dms ≠ [] ∧
    ((enrichContactsWithCaptely c6Env c6Dms).bulkAttempts = 1 ∧
     ((enrichContactsWithCaptely c6Env c6Dms).fallbackRan = true ↔
       ¬(c6Env.bulkJobId.isSome = true ∧ c6Env.waitOk = true ∧
         c6Env.bulkResults ≠ [])) ∧
     ((enrichContactsWithCaptely c6Env c6Dms).fallbackRan = true →
       (enrichContactsWithCaptely c6Env c6Dms).unitaryCalls =
         (validContacts c6Dms).length) ∧
     ((enrichContactsWithCaptely c6Env c6Dms).fallbackRan = true →
       (enrichContactsWithCaptely c6Env c6Dms).fallbackEnriched =
         (List.range (validContacts c6Dms).length).countP
           (fun k => unitarySucceeds (c6Env.unitary k)))) :=
  ⟨by decide, c6_bulk_once_then_unitary_fallback c6Env c6Dms (by decide)⟩

/-! ### State-access lemmas for the tracker walkthrough -/

theorem updateStepState_steps_ne (s : SessionState) (step : Nat)
    (u : StepUpdate) (n : Nat) (h : n ≠ step) :
    (updateStepState s step u).steps n = s.steps n := by
  simp [updateStepState, h]

theorem updateStepState_noStatus_trace (s : SessionState) (k : Nat)
    (u : StepUpdate) (h : u.status = none) :
    (updateStepState s k u).trace = s.trace := by
  simp [updateStepState, h]

theorem updateStepState_noStatus_good (s : SessionState) (k : Nat)
    (u : StepUpdate) (hst : u.status = none) (he : u.errorMessage = none)
    (hg : GoodSteps s) : GoodSteps (updateStepState s k u) := by
  intro n
  by_cases hn : n = k
  · subst hn
    have hk := hg n
    simp only [goodRecord, updateStepState, applyUpdate, hst, he] at hk ⊢
    simpa using hk
  · rw [updateStepState_steps_ne s k u n hn]
    exact hg n

theorem traceOK_append (l₁ l₂ : List (Nat × StepStatus × StepStatus))
    (h₁ : TraceOK l₁) (h₂ : ∀ e ∈ l₂, amendedEdge e.2.1 e.2.2 = true) :
    TraceOK (l₁ ++ l₂) := by
  intro e he
  rcases List.mem_append.mp he with h | h
  · exact h₁ e h
  · exact h₂ e h

/-! ### `run_step_with_capture` invariant lemmas -/

theorem rswc_steps_ne {α : Type} (stopD : Bool) (step : Nat)
    (act : Except String α) (s : SessionState) (n : Nat) (h : n ≠ step) :
    ((runStepWithCapture stopD step act s).2).steps n = s.steps n := by
  unfold runStepWithCapture
  by_cases hs : s.stopRequested = true
  · simp [hs, updateStepState, h]
  · cases act with
    | ok a =>
      simp [hs, updateStepState, addStepLog, tick, h]
    | error e =>
      simp [hs, updateStepState, addStepLog, tick, h]

theorem rswc_good {α : Type} (stopD : Bool) (step : Nat)
    (act : Except String α) (s : SessionState) (hg : GoodSteps s) :
    GoodSteps (runStepWithCapture stopD step act s).2 := by
  intro n
  by_cases hn : n = step
  · subst hn
    unfold runStepWithCapture
    by_cases hs : s.stopRequested = true
    · simp [hs, updateStepState, applyUpdate, goodRecord]
    · cases act with
      | ok a =>
        simp [hs, updateStepState, applyUpdate, addStepLog, tick,
          goodRecord]
      | error e =>
        simp [hs, updateStepState, applyUpdate, addStepLog, tick,
          goodRecord]
  · rw [rswc_steps_ne stopD step act s n hn]
    exact hg n

theorem rswc_traceOK {α : Type} (stopD : Bool) (step : Nat)
    (act : Except String α) (s : SessionState)
    (hpend : (s.steps step).status = .pending) (ht : TraceOK s.trace) :
    TraceOK (runStepWithCapture stopD step act s).2.trace := by
  unfold runStepWithCapture
  by_cases hs : s.stopRequested = true
  · simp only [hs, if_true]
    simp only [updateStepState]
    apply traceOK_append _ _ ht
    intro e he
    simp at he
    rw [he, hpend]
    rfl
  · cases act with
    | ok a =>
      simp only [hs, if_false, Bool.false_eq_true, updateStepState,
        addStepLog, tick, applyUpdate]
      apply traceOK_append
      · apply traceOK_append _ _ ht
        intro e he
        simp at he
        rw [he, hpend]
        rfl
      · intro e he
        simp at he
        rw [he]
        rfl
    | error e =>
      simp only [hs, if_false, Bool.false_eq_true, updateStepState,
        addStepLog, tick, applyUpdate]
      apply traceOK_append
      · apply traceOK_append _ _ ht
        intro e he
        simp at he
        rw [he, hpend]
        rfl
      · intro e he
        simp at he
        rw [he]
        rfl

/-! ### `execute_step_k` invariant lemmas -/

theorem exec1_master (env : PipelineEnv) (mc : Option Nat)
    (s : SessionState) (hg : GoodSteps s) (ht : TraceOK s.trace)
    (hp : (s.steps 1).status = .pending) :
    GoodSteps (executeStep1 env mc s).2 ∧
    TraceOK (executeStep1 env mc s).2.trace ∧
    ∀ n, n ≠ 1 → (executeStep1 env mc s).2.steps n = s.steps n := by
  have hg' := rswc_good (env.stopDuring 1) 1 (env.step1 mc) s hg
  have ht' := rswc_traceOK (env.stopDuring 1) 1 (env.step1 mc) s hp ht
  have hne' := fun n hn =>
    rswc_steps_ne (env.stopDuring 1) 1 (env.step1 mc) s n hn
  unfold executeStep1
  rcases hr : runStepWithCapture (env.stopDuring 1) 1 (env.step1 mc) s
    with ⟨res, s'⟩
  simp only [hr] at hg' ht' hne'
  cases res with
  | error e => exact ⟨hg', ht', hne'⟩
  | ok o =>
    cases o with
    | none => exact ⟨hg', ht', hne'⟩
    | some companies =>
      dsimp only
      by_cases he : companies.isEmpty = true
      · rw [if_pos he]
        exact ⟨hg', ht', hne'⟩
      · rw [if_neg he]
        refine ⟨?_, ?_, ?_⟩
        · exact updateStepState_noStatus_good _ _ _ rfl rfl hg'
        · rw [updateStepState_noStatus_trace _ _ _ rfl]
          exact ht'
        · intro n hn
          rw [updateStepState_steps_ne _ _ _ _ hn]
          exact hne' n hn

theorem exec2_master (env : PipelineEnv) (s : SessionState)
    (hg : GoodSteps s) (ht : TraceOK s.trace)
    (hp : (s.steps 2).status = .pending) :
    GoodSteps (executeStep2 env s).2 ∧
    TraceOK (executeStep2 env s).2.trace ∧
    ∀ n, n ≠ 2 → (executeStep2 env s).2.steps n = s.steps n := by
  unfold executeStep2
  by_cases hemp : s.companies.isEmpty = true
  · rw [if_pos hemp]
    exact ⟨hg, ht, fun n _ => rfl⟩
  · rw [if_neg hemp]
    have hg' := rswc_good (env.stopDuring 2) 2 (env.step2 s.companies) s hg
    have ht' := rswc_traceOK (env.stopDuring 2) 2 (env.step2 s.companies)
      s hp ht
    have hne' := fun n hn =>
      rswc_steps_ne (env.stopDuring 2) 2 (env.step2 s.companies) s n hn
    rcases hr : runStepWithCapture (env.stopDuring 2) 2
      (env.step2 s.companies) s with ⟨res, s'⟩
    simp only [hr] at hg' ht' hne'
    cases res with
    | error e => exact ⟨hg', ht', hne'⟩
    | ok o =>
      cases o with
      | none => exact ⟨hg', ht', hne'⟩
      | some enriched =>
        dsimp only
        by_cases he : enriched.isEmpty = true
        · rw [if_pos he]
          exact ⟨hg', ht', hne'⟩
        · rw [if_neg he]
          refine ⟨?_, ?_, ?_⟩
          · exact updateStepState_noStatus_good _ _ _ rfl rfl hg'
          · rw [updateStepState_noStatus_trace _ _ _ rfl]
            exact ht'
          · intro n hn
            rw [updateStepState_steps_ne _ _ _ _ hn]
            exact hne' n hn

theorem exec3_master (env : PipelineEnv) (s : SessionState)
    (hg : GoodSteps s) (ht : TraceOK s.trace)
    (hp : (s.steps 3).status = .pending) :
    GoodSteps (executeStep3 env s).2 ∧
    TraceOK (executeStep3 env s).2.trace ∧
    ∀ n, n ≠ 3 → (executeStep3 env s).2.steps n = s.steps n := by
  unfold executeStep3
  by_cases hemp : s.companies.isEmpty = true
  · rw [if_pos hemp]
    exact ⟨hg, ht, fun n _ => rfl⟩
  · rw [if_neg hemp]
    have hg' := rswc_good (env.stopDuring 3) 3 (env.step3 s.companies) s hg
    have ht' := rswc_traceOK (env.stopDuring 3) 3 (env.step3 s.companies)
      s hp ht
    have hne' := fun n hn =>
      rswc_steps_ne (env.stopDuring 3) 3 (env.step3 s.companies) s n hn
    rcases hr : runStepWithCapture (env.stopDuring 3) 3
      (env.step3 s.companies) s with ⟨res, s'⟩
    simp only [hr] at hg' ht' hne'
    cases res with
    | error e => exact ⟨hg', ht', hne'⟩
    | ok o =>
      cases o with
      | none => exact ⟨hg', ht', hne'⟩
      | some filepath =>
        dsimp only
        by_cases he : filepath.isEmpty = true
        · rw [if_pos he]
          exact ⟨hg', ht', hne'⟩
        · rw [if_neg he]
          refine ⟨?_, ?_, ?_⟩
          · exact updateStepState_noStatus_good _ _ _ rfl rfl hg'
          · rw [updateStepState_noStatus_trace _ _ _ rfl]
            exact ht'
          · intro n hn
            rw [updateStepState_steps_ne _ _ _ _ hn]
            exact hne' n hn

theorem exec4_master (env : PipelineEnv) (s : SessionState)
    (hg : GoodSteps s) (ht : TraceOK s.trace)
    (hp : (s.steps 4).status = .pending) :
    GoodSteps (executeStep4 env s).2 ∧
    TraceOK (executeStep4 env s).2.trace ∧
    ∀ n, n ≠ 4 → (executeStep4 env s).2.steps n = s.steps n := by
  unfold executeStep4
  by_cases hemp : s.companies.isEmpty = true
  · rw [if_pos hemp]
    exact ⟨hg, ht, fun n _ => rfl⟩
  · rw [if_neg hemp]
    have hg' := rswc_good (env.stopDuring 4) 4 (env.step4 s.companies) s hg
    have ht' := rswc_traceOK (env.stopDuring 4) 4 (env.step4 s.companies)
      s hp ht
    have hne' := fun n hn =>
      rswc_steps_ne (env.stopDuring 4) 4 (env.step4 s.companies) s n hn
    rcases hr : runStepWithCapture (env.stopDuring 4) 4
      (env.step4 s.companies) s with ⟨res, s'⟩
    simp only [hr] at hg' ht' hne'
    cases res with
    | error e => exact ⟨hg', ht', hne'⟩
    | ok o =>
      cases o with
      | none => exact ⟨hg', ht', hne'⟩
      | some ce =>
        dsimp only
        by_cases he : ce.isEmpty = true
        · rw [if_pos he]
          exact ⟨hg', ht', hne'⟩
        · rw [if_neg he]
          refine ⟨?_, ?_, ?_⟩
          · exact updateStepState_noStatus_good _ _ _ rfl rfl hg'
          · rw [updateStepState_noStatus_trace _ _ _ rfl]
            exact ht'
          · intro n hn
            rw [updateStepState_steps_ne _ _ _ _ hn]
            exact hne' n hn

theorem exec5_master (env : PipelineEnv) (s : SessionState)
    (hg : GoodSteps s) (ht : TraceOK s.trace)
    (hp : (s.steps 5).status = .pending) :
    GoodSteps (executeStep5 env s).2 ∧
    TraceOK (executeStep5 env s).2.trace ∧
    ∀ n, n ≠ 5 → (executeStep5 env s).2.steps n = s.steps n := by
  unfold executeStep5
  by_cases hemp : s.companyEmployees.isEmpty = true
  · rw [if_pos hemp]
    exact ⟨hg, ht, fun n _ => rfl⟩
  · rw [if_neg hemp]
    have hg' := rswc_good (env.stopDuring 5) 5 (env.step5 s.companyEmployees)
      s hg
    have ht' := rswc_traceOK (env.stopDuring 5) 5
      (env.step5 s.companyEmployees) s hp ht
    have hne' := fun n hn =>
      rswc_steps_ne (env.stopDuring 5) 5 (env.step5 s.companyEmployees)
        s n hn
    rcases hr : runStepWithCapture (env.stopDuring 5) 5
      (env.step5 s.companyEmployees) s with ⟨res, s'⟩
    simp only [hr] at hg' ht' hne'
    cases res with
    | error e => exact ⟨hg', ht', hne'⟩
    | ok o =>
      cases o with
      | none => exact ⟨hg', ht', hne'⟩
      | some dms =>
        dsimp only
        by_cases he : dms.isEmpty = true
        · rw [if_pos he]
          exact ⟨hg', ht', hne'⟩
        · rw [if_neg he]
          refine ⟨?_, ?_, ?_⟩
          · exact updateStepState_noStatus_good _ _ _ rfl rfl hg'
          · rw [updateStepState_noStatus_trace _ _ _ rfl]
            exact ht'
          · intro n hn
            rw [updateStepState_steps_ne _ _ _ _ hn]
            exact hne' n hn

theorem exec6_master (env : PipelineEnv) (s : SessionState)
    (hg : GoodSteps s) (ht : TraceOK s.trace)
    (hp : (s.steps 6).status = .pending) :
    GoodSteps (executeStep6 env s).2 ∧
    TraceOK (executeStep6 env s).2.trace ∧
    ∀ n, n ≠ 6 → (executeStep6 env s).2.steps n = s.steps n := by
  unfold executeStep6
  by_cases hemp : s.decisionMakers.isEmpty = true
  · rw [if_pos hemp]
    exact ⟨hg, ht, fun n _ => rfl⟩
  · rw [if_neg hemp]
    have hg' := rswc_good (env.stopDuring 6) 6 (env.step6 s.decisionMakers)
      s hg
    have ht' := rswc_traceOK (env.stopDuring 6) 6
      (env.step6 s.decisionMakers) s hp ht
    have hne' := fun n hn =>
      rswc_steps_ne (env.stopDuring 6) 6 (env.step6 s.decisionMakers)
        s n hn
    rcases hr : runStepWithCapture (env.stopDuring 6) 6
      (env.step6 s.decisionMakers) s with ⟨res, s'⟩
    simp only [hr] at hg' ht' hne'
    cases res with
    | error e => exact ⟨hg', ht', hne'⟩
    | ok o =>
      cases o with
      | none => exact ⟨hg', ht', hne'⟩
      | some enriched =>
        dsimp only
        by_cases he : enriched.isEmpty = true
        · rw [if_pos he]
          exact ⟨hg', ht', hne'⟩
        · rw [if_neg he]
          refine ⟨?_, ?_, ?_⟩
          · exact updateStepState_noStatus_good _ _ _ rfl rfl hg'
          · rw [updateStepState_noStatus_trace _ _ _ rfl]
            exact ht'
          · intro n hn
            rw [updateStepState_steps_ne _ _ _ _ hn]
            exact hne' n hn

theorem exec7_master (env : PipelineEnv) (s : SessionState)
    (hg : GoodSteps s) (ht : TraceOK s.trace)
    (hp : (s.steps 7).status = .pending) :
    GoodSteps (executeStep7 env s).2 ∧
    TraceOK (executeStep7 env s).2.trace ∧
    ∀ n, n ≠ 7 → (executeStep7 env s).2.steps n = s.steps n := by
  unfold executeStep7
  by_cases hemp : s.enrichedContacts.isEmpty = true
  · rw [if_pos hemp]
    exact ⟨hg, ht, fun n _ => rfl⟩
  · rw [if_neg hemp]
    have hg' := rswc_good (env.stopDuring 7) 7
      (env.step7 s.enrichedContacts) s hg
    have ht' := rswc_traceOK (env.stopDuring 7) 7
      (env.step7 s.enrichedContacts) s hp ht
    have hne' := fun n hn =>
      rswc_steps_ne (env.stopDuring 7) 7 (env.step7 s.enrichedContacts)
        s n hn
    rcases hr : runStepWithCapture (env.stopDuring 7) 7
      (env.step7 s.enrichedContacts) s with ⟨res, s'⟩
    simp only [hr] at hg' ht' hne'
    cases res with
    | error e => exact ⟨hg', ht', hne'⟩
    | ok o =>
      cases o with
      | none => exact ⟨hg', ht', hne'⟩
      | some filepath =>
        dsimp only
        by_cases he : filepath.isEmpty = true
        · rw [if_pos he]
          exact ⟨hg', ht', hne'⟩
        · rw [if_neg he]
          refine ⟨?_, ?_, ?_⟩
          · exact updateStepState_noStatus_good _ _ _ rfl rfl hg'
          · rw [updateStepState_noStatus_trace _ _ _ rfl]
            exact ht'
          · intro n hn
            rw [updateStepState_steps_ne _ _ _ _ hn]
            exact hne' n hn

/-! ### `use_pappers_leaders` invariant lemmas -/

theorem goodRecord_err_none (r : StepState) (hr : goodRecord r)
    (hst : r.status ≠ .failed) : r.errorMessage = none := by
  rcases h : r.errorMessage with _ | v
  · rfl
  · exact absurd (hr.mp (by simp [h])) hst

theorem upl_steps_ne (s : SessionState) (n : Nat) (h4 : n ≠ 4)
    (h5 : n ≠ 5) : (usePappersLeaders s).2.steps n = s.steps n := by
  simp [usePappersLeaders, updateStepState, addStepLog, tick, h4, h5]

theorem upl_good (s : SessionState) (hg : GoodSteps s)
    (h4 : (s.steps 4).status = .pending)
    (h5 : (s.steps 5).status = .pending) :
    GoodSteps (usePappersLeaders s).2 := by
  have he4 : (s.steps 4).errorMessage = none :=
    goodRecord_err_none _ (hg 4) (by rw [h4]; exact fun h => by cases h)
  have he5 : (s.steps 5).errorMessage = none :=
    goodRecord_err_none _ (hg 5) (by rw [h5]; exact fun h => by cases h)
  intro n
  by_cases hn4 : n = 4
  · subst hn4
    simp [usePappersLeaders, updateStepState, applyUpdate, addStepLog,
      tick, goodRecord, he4]
  · by_cases hn5 : n = 5
    · subst hn5
      simp [usePappersLeaders, updateStepState, applyUpdate, addStepLog,
        tick, goodRecord, he5]
    · rw [upl_steps_ne s n hn4 hn5]
      exact hg n

theorem upl_traceOK (s : SessionState) (ht : TraceOK s.trace)
    (h4 : (s.steps 4).status = .pending)
    (h5 : (s.steps 5).status = .pending) :
    TraceOK (usePappersLeaders s).2.trace := by
  simp only [usePappersLeaders, updateStepState, addStepLog, tick]
  apply traceOK_append
  · apply traceOK_append _ _ ht
    intro e he
    simp at he
    rw [he, h4]
    rfl
  · intro e he
    simp at he
    rw [he]
    simp only [show (5 : Nat) ≠ 4 from by decide, if_false]
    rw [h5]
    rfl

/-! ### Orchestrator phase invariant lemmas -/

theorem phase67_master (env : PipelineEnv) (s : SessionState)
    (hg : GoodSteps s) (ht : TraceOK s.trace)
    (h6 : (s.steps 6).status = .pending)
    (h7 : (s.steps 7).status = .pending) :
    GoodSteps (runPhase67 env s).2 ∧ TraceOK (runPhase67 env s).2.trace := by
  obtain ⟨hg6, ht6, hne6⟩ := exec6_master env s hg ht h6
  unfold runPhase67
  rcases hr : executeStep6 env s with ⟨res, s6⟩
  simp only [hr] at hg6 ht6 hne6
  cases res with
  | error e => exact ⟨hg6, ht6⟩
  | ok o =>
    cases o with
    | none => exact ⟨hg6, ht6⟩
    | some enriched =>
      dsimp only
      by_cases hc : (enriched.isEmpty || s6.stopRequested) = true
      · rw [if_pos hc]
        exact ⟨hg6, ht6⟩
      · rw [if_neg hc]
        have h7' : (s6.steps 7).status = .pending := by
          rw [hne6 7 (by decide)]
          exact h7
        obtain ⟨hg7, ht7, hne7⟩ := exec7_master env s6 hg6 ht6 h7'
        rcases hr7 : executeStep7 env s6 with ⟨res7, s7⟩
        simp only [hr7] at hg7 ht7 hne7
        cases res7 with
        | error e => exact ⟨hg7, ht7⟩
        | ok o7 =>
          dsimp only
          exact ⟨hg7, ht7⟩

theorem phase45_master (env : PipelineEnv) (skip : Bool)
    (s : SessionState) (hg : GoodSteps s) (ht : TraceOK s.trace)
    (h4 : (s.steps 4).status = .pending)
    (h5 : (s.steps 5).status = .pending)
    (h6 : (s.steps 6).status = .pending)
    (h7 : (s.steps 7).status = .pending) :
    GoodSteps (runPhase45 env skip s).2 ∧
    TraceOK (runPhase45 env skip s).2.trace := by
  unfold runPhase45
  by_cases hskip : skip = true
  · rw [if_pos hskip]
    have hgU := upl_good s hg h4 h5
    have htU := upl_traceOK s ht h4 h5
    have h6' : ((usePappersLeaders s).2.steps 6).status = .pending := by
      rw [upl_steps_ne s 6 (by decide) (by decide)]
      exact h6
    have h7' : ((usePappersLeaders s).2.steps 7).status = .pending := by
      rw [upl_steps_ne s 7 (by decide) (by decide)]
      exact h7
    exact phase67_master env _ hgU htU h6' h7'
  · rw [if_neg hskip]
    obtain ⟨hg4, ht4, hne4⟩ := exec4_master env s hg ht h4
    rcases hr4 : executeStep4 env s with ⟨r4, s4⟩
    simp only [hr4] at hg4 ht4 hne4
    cases r4 with
    | error e => exact ⟨hg4, ht4⟩
    | ok o =>
      cases o with
      | none => exact ⟨hg4, ht4⟩
      | some ce =>
        dsimp only
        by_cases hc : (ce.isEmpty || s4.stopRequested) = true
        · rw [if_pos hc]
          exact ⟨hg4, ht4⟩
        · rw [if_neg hc]
          have h5' : (s4.steps 5).status = .pending := by
            rw [hne4 5 (by decide)]; exact h5
          obtain ⟨hg5, ht5, hne5⟩ := exec5_master env s4 hg4 ht4 h5'
          rcases hr5 : executeStep5 env s4 with ⟨r5, s5⟩
          simp only [hr5] at hg5 ht5 hne5
          cases r5 with
          | error e => exact ⟨hg5, ht5⟩
          | ok o5 =>
            cases o5 with
            | none => exact ⟨hg5, ht5⟩
            | some dms =>
              dsimp only
              by_cases hc5 : (dms.isEmpty || s5.stopRequested) = true
              · rw [if_pos hc5]
                exact ⟨hg5, ht5⟩
              · rw [if_neg hc5]
                have h6' : (s5.steps 6).status = .pending := by
                  rw [hne5 6 (by decide), hne4 6 (by decide)]; exact h6
                have h7' : (s5.steps 7).status = .pending := by
                  rw [hne5 7 (by decide), hne4 7 (by decide)]; exact h7
                exact phase67_master env s5 hg5 ht5 h6' h7'

theorem body_master (env : PipelineEnv) (mc : Option Nat) (skip : Bool)
    (s : SessionState) (hg : GoodSteps s) (ht : TraceOK s.trace)
    (hp : ∀ k, (s.steps k).status = .pending) :
    GoodSteps (runFullPipelineBody env mc skip s).2 ∧
    TraceOK (runFullPipelineBody env mc skip s).2.trace := by
  unfold runFullPipelineBody
  obtain ⟨hg1, ht1, hne1⟩ := exec1_master env mc s hg ht (hp 1)
  rcases hr1 : executeStep1 env mc s with ⟨r1, s1⟩
  simp only [hr1] at hg1 ht1 hne1
  cases r1 with
  | error e => exact ⟨hg1, ht1⟩
  | ok o =>
    cases o with
    | none => exact ⟨hg1, ht1⟩
    | some companies =>
      dsimp only
      by_cases hc : (companies.isEmpty || s1.stopRequested) = true
      · rw [if_pos hc]
        exact ⟨hg1, ht1⟩
      · rw [if_neg hc]
        have hp2 : (s1.steps 2).status = .pending := by
          rw [hne1 2 (by decide)]; exact hp 2
        obtain ⟨hg2, ht2, hne2⟩ := exec2_master env s1 hg1 ht1 hp2
        rcases hr2 : executeStep2 env s1 with ⟨r2, s2⟩
        simp only [hr2] at hg2 ht2 hne2
        cases r2 with
        | error e => exact ⟨hg2, ht2⟩
        | ok o2 =>
          cases o2 with
          | none => exact ⟨hg2, ht2⟩
          | some enriched =>
            dsimp only
            by_cases hc2 : (enriched.isEmpty || s2.stopRequested) = true
            · rw [if_pos hc2]
              exact ⟨hg2, ht2⟩
            · rw [if_neg hc2]
              have hp3 : (s2.steps 3).status = .pending := by
                rw [hne2 3 (by decide), hne1 3 (by decide)]; exact hp 3
              obtain ⟨hg3, ht3, hne3⟩ := exec3_master env s2 hg2 ht2 hp3
              rcases hr3 : executeStep3 env s2 with ⟨r3, s3⟩
              simp only [hr3] at hg3 ht3 hne3
              cases r3 with
              | error e => exact ⟨hg3, ht3⟩
              | ok o3 =>
                dsimp only
                by_cases hc3 : s3.stopRequested = true
                · rw [if_pos hc3]
                  exact ⟨hg3, ht3⟩
                · rw [if_neg hc3]
                  have h4 : (s3.steps 4).status = .pending := by
                    rw [hne3 4 (by decide), hne2 4 (by decide),
                      hne1 4 (by decide)]
                    exact hp 4
                  have h5 : (s3.steps 5).status = .pending := by
                    rw [hne3 5 (by decide), hne2 5 (by decide),
                      hne1 5 (by decide)]
                    exact hp 5
                  have h6 : (s3.steps 6).status = .pending := by
                    rw [hne3 6 (by decide), hne2 6 (by decide),
                      hne1 6 (by decide)]
                    exact hp 6
                  have h7 : (s3.steps 7).status = .pending := by
                    rw [hne3 7 (by decide), hne2 7 (by decide),
                      hne1 7 (by decide)]
                    exact hp 7
                  exact phase45_master env skip s3 hg3 ht3 h4 h5 h6 h7

theorem runFullPipeline_master (env : PipelineEnv) (mc : Option Nat)
    (skip : Bool) :
    GoodSteps (runFullPipeline env mc skip initialSession).2 ∧
    TraceOK (runFullPipeline env mc skip initialSession).2.trace := by
  have hg0 : GoodSteps ({ (tick { initialSession with isRunning := true }).2
      with pipelineStartedAt :=
        some (tick { initialSession with isRunning := true }).1 }) := by
    intro k
    simp [initialSession, tick, goodRecord]
  have ht0 : TraceOK ({ (tick { initialSession with isRunning := true }).2
      with pipelineStartedAt :=
        some (tick { initialSession with isRunning := true }).1 }).trace := by
    intro e he
    simp [initialSession, tick] at he
  have hp0 : ∀ k, (({ (tick { initialSession with isRunning := true }).2
      with pipelineStartedAt :=
        some (tick { initialSession with isRunning := true }).1 }).steps
        k).status = .pending := by
    intro k
    rfl
  have h := body_master env mc skip _ hg0 ht0 hp0
  exact h

/-- C1 counterexample: `use_pappers_leaders` on a fresh state writes
the status transition PENDING→COMPLETED for the filtering stage
(step 5) without passing through RUNNING — an edge outside the claimed
set PENDING→RUNNING→{COMPLETED, FAILED, SKIPPED} ∪ {PENDING→SKIPPED}. -/
theorem c1_counterexample :
    (5, StepStatus.pending, StepStatus.completed) ∈
      (usePappersLeaders initialSession).2.trace ∧
    claimedEdge .pending .completed = false := by decide

/-- C1 amended: within a single `run_full_pipeline` from a freshly
initialized state, every recorded status write follows
PENDING→RUNNING→{COMPLETED, FAILED}, PENDING→SKIPPED,
PENDING→COMPLETED or PENDING→FAILED; in particular no transition
leaves COMPLETED, FAILED or SKIPPED within the run. -/
theorem c1_amended_transitions (env : PipelineEnv) (mc : Option Nat)
    (skip : Bool) :
    (∀ e ∈ (runFullPipeline env mc skip initialSession).2.trace,
      amendedEdge e.2.1 e.2.2 = true) ∧
    (∀ e ∈ (runFullPipeline env mc skip initialSession).2.trace,
      e.2.1 ≠ StepStatus.completed ∧ e.2.1 ≠ StepStatus.failed ∧
      e.2.1 ≠ StepStatus.skipped) := by
  have h := (runFullPipeline_master env mc skip).2
  refine ⟨h, ?_⟩
  intro e he
  have ha := h e he
  obtain ⟨k, a, b⟩ := e
  cases a <;> cases b <;> simp_all [amendedEdge]

/-- Witness for C1 amended: in the concrete skip-branch run the trace
records the PENDING→SKIPPED write for step 4, and it is an amended
edge whose source is not terminal. -/
theorem c1_amended_witness :
    (4, StepStatus.pending, StepStatus.skipped) ∈
      (runFullPipeline c8Env none true initialSession).2.trace ∧
    amendedEdge StepStatus.pending StepStatus.skipped = true ∧
    (StepStatus.pending ≠ StepStatus.completed ∧
     StepStatus.pending ≠ StepStatus.failed ∧
     StepStatus.pending ≠ StepStatus.skipped) :=
  ⟨by decide,
   (c1_amended_transitions c8Env none true).1
     (4, StepStatus.pending, StepStatus.skipped) (by decide),
   (c1_amended_transitions c8Env none true).2
     (4, StepStatus.pending, StepStatus.skipped) (by decide)⟩

/-- C5 counterexample: run step 1 alone with a raising stage function
(record becomes FAILED with `error_message = "boom"`), then
`load_companies_from_csv` — the record becomes COMPLETED while keeping
the stale non-null `error_message`, refuting "error_message is non-null
iff status is FAILED" for states reachable by sequences of tracker
operations. -/
theorem c5_counterexample :
    ((loadCompaniesFromCsv (.ok [{ nom := "Alpha", siren := "111" }])
        (runSingleStep c5FailEnv 1 none initialSession).2).2.steps 1).status
      = .completed ∧
    ((loadCompaniesFromCsv (.ok [{ nom := "Alpha", siren := "111" }])
        (runSingleStep c5FailEnv 1 none
          initialSession).2).2.steps 1).errorMessage = some "boom" ∧
    some "boom" ≠ (none : Option String) := by decide

/-- C5 amended: within a single `run_full_pipeline` from a freshly
initialized state the invariant does hold: a step record's
`error_message` is non-null iff its status is FAILED.  (Sequences that
interleave `load_companies_from_csv` or `use_pappers_leaders` after a
failure can violate it, since those operations overwrite the status
without clearing `error_message` — see the counterexample.) -/
theorem c5_amended_error_message_iff_failed (env : PipelineEnv)
    (mc : Option Nat) (skip : Bool) (k : Nat) :
    ((runFullPipeline env mc skip initialSession).2.steps
        k).errorMessage.isSome = true ↔
    ((runFullPipeline env mc skip initialSession).2.steps k).status =
      .failed :=
  (runFullPipeline_master env mc skip).1 k

/-! ### Rate limiter claim -/

/-- C9 counterexample: a sequential (weakly monotone clock) call
sequence on `RateLimiter(max_calls=2, period=10)`: three calls at
instant 0, then two at instant 10.  The third call sleeps until 10,
but the fourth and fifth observe `sleep_time = 0` (the oldest
timestamp is exactly `period` old and the strict eviction keeps it)
and complete immediately, so the window `(0, 10]` holds three
completions — more than `max_calls`. -/
theorem c9_counterexample :
    seqValid ⟨2, 10⟩ false [0, 0, 0, 10, 10] ∧
    limiterCompletions ⟨2, 10⟩ [0, 0, 0, 10, 10] = [0, 0, 10, 10, 10] ∧
    windowCount ⟨2, 10⟩ (limiterCompletions ⟨2, 10⟩ [0, 0, 0, 10, 10]) 0
      = 3 ∧
    2 < 3 := by decide

/-- Helper for C9: `wait_if_needed` written as one explicit
append-and-completion form. -/
theorem waitIfNeeded_eq (rl : RateLimiter) (d : List Int) (now : Int) :
    waitIfNeeded rl d now =
      ((d.dropWhile fun t => decide (t < now - rl.period)) ++
        [waitCompletion rl d now], waitCompletion rl d now) := by
  unfold waitIfNeeded waitCompletion
  by_cases h1 : rl.maxCalls ≤
      (d.dropWhile fun t => decide (t < now - rl.period)).length
  · simp only [h1, if_true]
    split <;> rfl
  · simp [h1]

/-- Helper for C9: appending one completion `c` preserves the window
invariant, given the decomposition of the old state into stale entries
and the kept window, and the admission facts about `c`. -/
theorem WInv_append (rl : RateLimiter) (hm : 1 ≤ rl.maxCalls)
    (comps : List Int) (j : Nat) (stale₂ kept : List Int)
    (prev now c : Int)
    (hjlen : j ≤ comps.length)
    (hdecomp : comps.drop j = stale₂ ++ kept)
    (hstale₁ : ∀ x ∈ comps.take j, x < prev - rl.period)
    (hstale₂ : ∀ x ∈ stale₂, x < now - rl.period)
    (hW : ∀ a, windowCount rl comps a ≤ rl.maxCalls)
    (hpn : prev < now)
    (hnc : now ≤ c)
    (hkle : kept.length ≤ rl.maxCalls)
    (hkhead : rl.maxCalls ≤ kept.length → kept.headD 0 ≤ c - rl.period) :
    WInv rl (kept ++ [c]) (comps ++ [c]) c := by
  have hlendrop : comps.length - j = stale₂.length + kept.length := by
    have := congrArg List.length hdecomp
    simpa [List.length_drop] using this
  have hj' : j + stale₂.length ≤ comps.length := by omega
  have hcompseq : comps = comps.take j ++ (stale₂ ++ kept) := by
    rw [← hdecomp, List.take_append_drop]
  refine ⟨?_, ⟨j + stale₂.length, ?_, ?_, ?_⟩, ?_, ?_⟩
  · -- the window bound
    intro a
    simp only [windowCount, List.countP_append]
    by_cases hcw : (decide (a < c) && decide (c ≤ a + rl.period)) = true
    · have hac : a < c ∧ c ≤ a + rl.period := by
        simpa [Bool.and_eq_true, decide_eq_true_eq] using hcw
      have hone :
          [c].countP (fun t => decide (a < t) && decide (t ≤ a + rl.period))
            = 1 := by
        simp [List.countP_cons, hcw]
      have hmain :
          comps.countP
              (fun t => decide (a < t) && decide (t ≤ a + rl.period)) ≤
            rl.maxCalls - 1 := by
        conv_lhs => rw [hcompseq]
        rw [List.countP_append, List.countP_append]
        have h1 : (comps.take j).countP
            (fun t => decide (a < t) && decide (t ≤ a + rl.period)) = 0 := by
          refine List.countP_eq_zero.mpr ?_
          intro x hx
          have hx1 := hstale₁ x hx
          simp only [Bool.and_eq_true, decide_eq_true_eq, not_and]
          intro hax
          omega
        have h2 : stale₂.countP
            (fun t => decide (a < t) && decide (t ≤ a + rl.period)) = 0 := by
          refine List.countP_eq_zero.mpr ?_
          intro x hx
          have hx2 := hstale₂ x hx
          simp only [Bool.and_eq_true, decide_eq_true_eq, not_and]
          intro hax
          omega
        have h3 : kept.countP
            (fun t => decide (a < t) && decide (t ≤ a + rl.period)) ≤
              rl.maxCalls - 1 := by
          by_cases hf : rl.maxCalls ≤ kept.length
          · have hkm : kept.length = rl.maxCalls := le_antisymm hkle hf
            have hkh := hkhead hf
            cases kept with
            | nil =>
              simp at hkm
              omega
            | cons kh kt =>
              rw [List.countP_cons]
              have hkh0 : kh ≤ c - rl.period := by
                simpa using hkh
              have hPkh : (decide (a < kh) && decide (kh ≤ a + rl.period))
                  = false := by
                have hna : ¬ (a < kh) := by omega
                simp [hna]
              rw [hPkh]
              simp only [Bool.false_eq_true, if_false, Nat.add_zero]
              have hlekt := List.countP_le_length
                (fun t => decide (a < t) && decide (t ≤ a + rl.period))
                (l := kt)
              have hktlen : kt.length = rl.maxCalls - 1 := by
                simp at hkm
                omega
              omega
          · have hle := List.countP_le_length
              (fun t => decide (a < t) && decide (t ≤ a + rl.period))
              (l := kept)
            omega
        omega
      rw [hone]
      have := hW a
      omega
    · have hzero :
          [c].countP (fun t => decide (a < t) && decide (t ≤ a + rl.period))
            = 0 := by
        simp [List.countP_cons, hcw]
      rw [hzero]
      have := hW a
      simp only [windowCount] at this
      omega
  · -- j' is within bounds
    simp only [List.length_append, List.length_cons, List.length_nil]
    omega
  · -- the new deque is the j'-suffix of the new completion list
    rw [List.drop_append_of_le_length hj']
    have : comps.drop (j + stale₂.length) = kept := by
      have hdd : comps.drop (j + stale₂.length) =
          (comps.drop j).drop stale₂.length := by
        rw [List.drop_drop]
      rw [hdd, hdecomp, List.drop_left]
    rw [this]
  · -- evicted completions are stale relative to c
    rw [List.take_append_of_le_length hj']
    intro x hx
    rw [List.take_add, hdecomp, List.take_left] at hx
    rcases List.mem_append.mp hx with h | h
    · have := hstale₁ x h
      omega
    · have := hstale₂ x h
      omega
  · -- deque length bound
    simp only [List.length_append, List.length_cons, List.length_nil]
    omega
  · -- overflow implies a stale head
    intro hl
    simp only [List.length_append, List.length_cons, List.length_nil] at hl
    have hkm : kept.length = rl.maxCalls := by omega
    have hkh := hkhead (by omega)
    cases kept with
    | nil =>
      simp at hkm
      omega
    | cons kh kt =>
      simpa using hkh

/-- Helper for C9: one `wait_if_needed` call preserves the window
invariant when its clock reading strictly exceeds the previous
completion. -/
theorem waitIfNeeded_WInv (rl : RateLimiter) (hm : 1 ≤ rl.maxCalls)
    (d comps : List Int) (prev now : Int) (hpn : prev < now)
    (inv : WInv rl d comps prev) :
    WInv rl (waitIfNeeded rl d now).1
      (comps ++ [(waitIfNeeded rl d now).2]) (waitIfNeeded rl d now).2 := by
  obtain ⟨hW, ⟨j, hj, hdj, hstale⟩, hlen, hover⟩ := inv
  rw [waitIfNeeded_eq]
  dsimp only
  have hkle : (d.dropWhile fun t => decide (t < now - rl.period)).length ≤
      rl.maxCalls := by
    rcases Nat.lt_or_ge d.length (rl.maxCalls + 1) with hlt | hge
    · have hsub : (d.dropWhile fun t => decide (t < now - rl.period)).length ≤
          d.length := (List.dropWhile_sublist _).length_le
      omega
    · have hdl : d.length = rl.maxCalls + 1 := le_antisymm hlen hge
      have hh : d.headD 0 ≤ prev - rl.period := hover hdl
      cases d with
      | nil =>
        rw [List.length_nil] at hdl
        omega
      | cons h t =>
        have hh' : h ≤ prev - rl.period := by simpa using hh
        have hqh : (decide (h < now - rl.period)) = true := by
          simp only [decide_eq_true_eq]
          omega
        rw [List.dropWhile_cons, hqh]
        simp only [if_true]
        have hsub : (t.dropWhile fun t => decide (t < now - rl.period)).length
            ≤ t.length := (List.dropWhile_sublist _).length_le
        simp at hdl
        omega
  have hnc : now ≤ waitCompletion rl d now := by
    unfold waitCompletion
    dsimp only
    split
    · split
      · omega
      · omega
    · omega
  have hkhead : rl.maxCalls ≤
      (d.dropWhile fun t => decide (t < now - rl.period)).length →
      (d.dropWhile fun t => decide (t < now - rl.period)).headD 0 ≤
        waitCompletion rl d now - rl.period := by
    intro hf
    unfold waitCompletion
    dsimp only
    rw [if_pos hf]
    split
    · omega
    · omega
  have hdecomp : comps.drop j =
      (d.takeWhile fun t => decide (t < now - rl.period)) ++
        (d.dropWhile fun t => decide (t < now - rl.period)) := by
    rw [← hdj, List.takeWhile_append_dropWhile]
  have hstale₂ : ∀ x ∈ (d.takeWhile fun t => decide (t < now - rl.period)),
      x < now - rl.period := by
    intro x hx
    have := List.mem_takeWhile_imp hx
    simpa using this
  exact WInv_append rl hm comps j _ _ prev now _ hj hdecomp hstale hstale₂
    hW hpn hnc hkle hkhead

/-- Helper for C9: along any strictly-clocked sequential run the window
bound holds for the whole completion history. -/
theorem runLimiter_windows (rl : RateLimiter) (hm : 1 ≤ rl.maxCalls) :
    ∀ (nows : List Int) (d comps : List Int) (prev : Int),
      WInv rl d comps prev →
      seqValidFrom rl true d prev nows →
      ∀ a, windowCount rl (comps ++ (runLimiter rl nows d).2) a ≤
        rl.maxCalls := by
  intro nows
  induction nows with
  | nil =>
    intro d comps prev inv _ a
    simpa [runLimiter] using inv.1 a
  | cons now rest ih =>
    intro d comps prev inv hv a
    obtain ⟨hpn, hv'⟩ := hv
    have hpn' : prev < now := by simpa using hpn
    have inv' := waitIfNeeded_WInv rl hm d comps prev now hpn' inv
    have hsplit : comps ++ (runLimiter rl (now :: rest) d).2 =
        (comps ++ [(waitIfNeeded rl d now).2]) ++
          (runLimiter rl rest (waitIfNeeded rl d now).1).2 := by
      simp [runLimiter]
    rw [hsplit]
    exact ih _ _ _ inv' hv' a

/-- C9 amended: for the rate limiter with `1 ≤ max_calls`, after any
sequence of sequential `wait_if_needed` calls in which each call's
clock reading strictly exceeds the previous call's completion
timestamp, every trailing half-open window `(a, a + period]` contains
at most `max_calls` completion timestamps.  Without strict clock
progress the bound fails (see the counterexample: repeated equal clock
readings admit `max_calls + 1` completions into one window, because the
strict eviction keeps a timestamp exactly `period` old and
`sleep_time` computes to 0). -/
theorem c9_amended_sliding_window (rl : RateLimiter) (nows : List Int)
    (hm : 1 ≤ rl.maxCalls) (hv : seqValid rl true nows) (a : Int) :
    windowCount rl (limiterCompletions rl nows) a ≤ rl.maxCalls := by
  cases nows with
  | nil =>
    simp [limiterCompletions, runLimiter, windowCount]
  | cons now rest =>
    have hnotle : ¬ rl.maxCalls ≤
        (([] : List Int).dropWhile fun t =>
          decide (t < now - rl.period)).length := by
      simp
      omega
    have hw0 : waitIfNeeded rl [] now = ([now], now) := by
      unfold waitIfNeeded
      rw [if_neg hnotle]
      rfl
    have inv1 : WInv rl [now] [now] now := by
      refine ⟨?_, ⟨0, by simp, by simp, by simp⟩, ?_, ?_⟩
      · intro b
        simp only [windowCount, List.countP_cons, List.countP_nil]
        split <;> omega
      · simp only [List.length_cons, List.length_nil]
        omega
      · intro h
        simp only [List.length_cons, List.length_nil] at h
        omega
    have hv1 : seqValidFrom rl true (waitIfNeeded rl [] now).1
        (waitIfNeeded rl [] now).2 rest := hv
    rw [hw0] at hv1
    have hbound := runLimiter_windows rl hm rest [now] [now] now inv1 hv1
    have heq : limiterCompletions rl (now :: rest) =
        [now] ++ (runLimiter rl rest [now]).2 := by
      simp [limiterCompletions, runLimiter, hw0]
    rw [heq]
    exact hbound a

/-- Witness for C9 amended: a concrete strictly-clocked run on
`RateLimiter(2, 10)` whose window count at 0 is within the bound. -/
theorem c9_amended_witness :
    1 ≤ (2 : Nat) ∧ seqValid ⟨2, 10⟩ true [0, 1, 2, 13] ∧
    windowCount ⟨2, 10⟩ (limiterCompletions ⟨2, 10⟩ [0, 1, 2, 13]) 0 ≤ 2 :=
  ⟨by decide, by decide,
    c9_amended_sliding_window ⟨2, 10⟩ [0, 1, 2, 13] (by decide) (by decide) 0⟩
